import Mathlib

/-!
# gearman-go client: framing, dispatch, request building and status

A shallow embedding of `src/pkg/gearman/client.go`.

* Bytes are natural numbers (a Go `byte` is a natural below 256); byte strings and
  Go `string`s are lists of bytes.
* A Go slice is a `Slice`: the bytes below its length and the bytes of the backing
  array between length and capacity.  Go checks an index against the length and the
  upper bound of a slice expression against the capacity; both checks are embedded.
* A call returns a `Res`: it returns a value, panics, or blocks for ever.  Every
  operation also returns the client state it leaves behind.
* The transport is a script: the results the successive `conn.Read` and `conn.Write`
  calls produce.
* Constants and the `int` width, which the package defines outside `client.go`, are
  the fields of `Consts`.
-/

namespace Gearman

/-! ## Constants defined outside `client.go` -/

/-- The constants `client.go` uses and the package declares elsewhere, the width of
the Go type `int`, and the capacity `append` picks when it reallocates. -/
structure Consts where
  /-- Width in bits of the Go type `int` (32 or 64 in every Go implementation). -/
  intBits : Nat
  /-- Size of the buffer handed to each `conn.Read`. -/
  BUFFER_SIZE : Nat
  /-- Capacity of the channels `JobQueue` and `incoming`. -/
  QUEUE_CAP : Nat
  /-- Capacity of the array `append` allocates for a slice of capacity `oldCap`
  that has to hold `needed` elements. -/
  growCap : (oldCap needed : Nat) → Nat
  REQ : Nat
  JOB_BG : Nat
  JOB_LOW : Nat
  JOB_HIGH : Nat
  SUBMIT_JOB : Nat
  SUBMIT_JOB_BG : Nat
  SUBMIT_JOB_LOW : Nat
  SUBMIT_JOB_LOW_BG : Nat
  SUBMIT_JOB_HIGH : Nat
  SUBMIT_JOB_HIGH_BG : Nat
  JOB_CREATED : Nat
  ERROR : Nat
  WORK_DATA : Nat
  WORK_WARNING : Nat
  WORK_STATUS : Nat
  WORK_COMPLETE : Nat
  WORK_FAIL : Nat
  WORK_EXCEPTION : Nat
  GET_STATUS : Nat
  STATUS_RES : Nat

/-- Sample values of the constants: the packet type numbers of the Gearman protocol,
a 1024-byte read buffer, 32-bit `int`, and an `append` that allocates exactly what an
empty slice needs and otherwise at least doubles. -/
def gearman32 : Consts where
  intBits := 32
  BUFFER_SIZE := 1024
  QUEUE_CAP := 512
  growCap := fun oldCap needed => if oldCap = 0 then needed else max needed (2 * oldCap)
  REQ := 5391697
  JOB_BG := 1
  JOB_LOW := 2
  JOB_HIGH := 4
  SUBMIT_JOB := 7
  SUBMIT_JOB_BG := 18
  SUBMIT_JOB_LOW := 33
  SUBMIT_JOB_LOW_BG := 34
  SUBMIT_JOB_HIGH := 21
  SUBMIT_JOB_HIGH_BG := 32
  JOB_CREATED := 8
  ERROR := 19
  WORK_DATA := 28
  WORK_WARNING := 29
  WORK_STATUS := 12
  WORK_COMPLETE := 13
  WORK_FAIL := 14
  WORK_EXCEPTION := 25
  GET_STATUS := 15
  STATUS_RES := 20

/-- The sample constants with a 64-bit `int`. -/
def gearman64 : Consts := { gearman32 with intBits := 64 }

/-! ## Machine integers -/

/-- The value an `int` holds after a computation whose mathematical result is `z`:
two's complement wrap-around at `intBits` bits. -/
def wrapInt (c : Consts) (z : Int) : Int :=
  let m : Int := 2 ^ c.intBits
  let r := z % m
  if 2 * r < m then r else r - m

/-- The conversion `int(x)` of an unsigned value. -/
def toInt (c : Consts) (x : Nat) : Int := wrapInt c (x : Int)

/-- The ASCII bytes of the decimal numeral of a natural number. -/
def decimal (n : Nat) : List Nat := (Nat.toDigits 10 n).map Char.toNat

/-- The bytes of `strconv.Itoa(i)`: the decimal numeral, with a minus sign when negative. -/
def Itoa (i : Int) : List Nat :=
  if i < 0 then 45 :: decimal i.natAbs else decimal i.toNat

/-- The number a list of ASCII digit bytes denotes, most significant first. -/
def parseDecimal (bs : List Nat) : Nat := bs.foldl (fun a b => 10 * a + (b - 48)) 0

/-- Modelled from the spec: `byteToUint32`, declared outside `client.go`; the spec's
numeric fields are unsigned 32-bit big-endian, so the four bytes are combined most
significant first. -/
def byteToUint32 (b0 b1 b2 b3 : Nat) : Nat :=
  (b0 % 256) * 2 ^ 24 + (b1 % 256) * 2 ^ 16 + (b2 % 256) * 2 ^ 8 + b3 % 256

/-- Modelled from the spec: the four bytes of a `uint32`, most significant first
(the inverse of `byteToUint32`, used by the packet encoder). -/
def uint32ToByte (n : Nat) : List Nat :=
  [n / 2 ^ 24 % 256, n / 2 ^ 16 % 256, n / 2 ^ 8 % 256, n % 256]

/-- Modelled from the spec: `RES_STR`, the response magic `\0RES`, declared outside
`client.go`. -/
def RES_STR : List Nat := [0, 82, 69, 83]

/-! ## Errors and outcomes -/

/-- An `os.Error` value: `os.EOF`, an error made by `os.NewError`, any other error a
transport call reports, the error `getError` extracts from an `ERROR` packet, or the
error `strconv.Atoui` returns for a string that is not a numeral. -/
inductive OsError where
  | EOF
  | NewError (msg : String)
  | transport (code : Nat)
  | server (payload : List Nat)
  | strconv (input : Nat)
  deriving DecidableEq, Repr

/-- How a call ends: it returns, it panics (a run-time bounds check or a nil
connection), it blocks for ever (nothing left to read, or a send on a full channel),
or the iteration budget of the model is used up. -/
inductive Res (α : Type) where
  | ret (a : α)
  | panic
  | blocked
  | timeout
  deriving DecidableEq, Repr

/-! ## Slices -/

/-- A Go byte slice: `vis` holds the elements below `len`, `spare` the elements of
the backing array from `len` up to `cap`. -/
structure Slice where
  vis : List Nat
  spare : List Nat
  deriving DecidableEq, Repr

namespace Slice

/-- The nil slice. -/
def empty : Slice := ⟨[], []⟩

/-- Result of `len(s)`. -/
def len (s : Slice) : Nat := s.vis.length

/-- Result of `cap(s)`. -/
def cap (s : Slice) : Nat := s.vis.length + s.spare.length

/-- The backing array from the start of the slice to its capacity. -/
def backing (s : Slice) : List Nat := s.vis ++ s.spare

/-- The index expression `s[i]`: out of range unless `i < len(s)`. -/
def index (s : Slice) (i : Int) : Option Nat :=
  if 0 ≤ i ∧ i < s.len then s.vis.get? i.toNat else none

/-- The slice expression `s[lo:hi]`: out of range unless `0 ≤ lo ≤ hi ≤ cap(s)`. -/
def slice (s : Slice) (lo hi : Int) : Option Slice :=
  if 0 ≤ lo ∧ lo ≤ hi ∧ hi ≤ s.cap then
    some ⟨(s.backing.drop lo.toNat).take (hi.toNat - lo.toNat), s.backing.drop hi.toNat⟩
  else none

/-- The slice expression `s[lo:]`, that is `s[lo:len(s)]`. -/
def sliceFrom (s : Slice) (lo : Int) : Option Slice := s.slice lo s.len

/-- The slice expression `s[:hi]`, that is `s[0:hi]`. -/
def sliceTo (s : Slice) (hi : Int) : Option Slice := s.slice 0 hi

/-- The call `append(s, xs...)`: in place when the capacity suffices, otherwise into
a fresh zeroed array whose capacity `growCap` chooses (never less than needed). -/
def append (c : Consts) (s : Slice) (xs : List Nat) : Slice :=
  if xs.length ≤ s.spare.length then
    ⟨s.vis ++ xs, s.spare.drop xs.length⟩
  else
    ⟨s.vis ++ xs, List.replicate (c.growCap s.cap (s.len + xs.length) - (s.len + xs.length)) 0⟩

end Slice

/-! ## Flags to submission type (`Do`, lines 125-142) -/

/-- The `datatype` that `Do` computes from `flag`. -/
def submitType (c : Consts) (flag : Nat) : Nat :=
  if flag &&& c.JOB_LOW = c.JOB_LOW then
    if flag &&& c.JOB_BG = c.JOB_BG then c.SUBMIT_JOB_LOW_BG else c.SUBMIT_JOB_LOW
  else if flag &&& c.JOB_HIGH = c.JOB_HIGH then
    if flag &&& c.JOB_BG = c.JOB_BG then c.SUBMIT_JOB_HIGH_BG else c.SUBMIT_JOB_HIGH
  else if flag &&& c.JOB_BG = c.JOB_BG then c.SUBMIT_JOB_BG
  else c.SUBMIT_JOB

/-- The three priorities a submission can have. -/
inductive Priority where
  | low
  | high
  | normal
  deriving DecidableEq, Repr

/-- The priority the flag bits name, in the words of the specification: LOW when the
`JOB_LOW` bit is set, otherwise HIGH when the `JOB_HIGH` bit is set, otherwise normal. -/
def flagPriority (c : Consts) (flag : Nat) : Priority :=
  if flag &&& c.JOB_LOW = c.JOB_LOW then Priority.low
  else if flag &&& c.JOB_HIGH = c.JOB_HIGH then Priority.high
  else Priority.normal

/-- Whether the `JOB_BG` bit of the flag is set. -/
def flagBackground (c : Consts) (flag : Nat) : Bool :=
  decide (flag &&& c.JOB_BG = c.JOB_BG)

/-- The wire submission type of a priority, foreground or background. -/
def wireType (c : Consts) : Priority → Bool → Nat
  | Priority.low, false => c.SUBMIT_JOB_LOW
  | Priority.low, true => c.SUBMIT_JOB_LOW_BG
  | Priority.high, false => c.SUBMIT_JOB_HIGH
  | Priority.high, true => c.SUBMIT_JOB_HIGH_BG
  | Priority.normal, false => c.SUBMIT_JOB
  | Priority.normal, true => c.SUBMIT_JOB_BG

/-- The three background submission types. -/
def backgroundTypes (c : Consts) : List Nat :=
  [c.SUBMIT_JOB_BG, c.SUBMIT_JOB_LOW_BG, c.SUBMIT_JOB_HIGH_BG]

/-- The six submission types. -/
def submitTypes (c : Consts) : List Nat :=
  [c.SUBMIT_JOB, c.SUBMIT_JOB_BG, c.SUBMIT_JOB_LOW, c.SUBMIT_JOB_LOW_BG,
   c.SUBMIT_JOB_HIGH, c.SUBMIT_JOB_HIGH_BG]

/-! ## Client state -/

/-- One result of `conn.Read(buf)`: the bytes stored into `buf`, whose number is the
returned `n`, and the returned error. -/
structure ReadEvent where
  bytes : List Nat
  err : Option OsError
  deriving DecidableEq, Repr

/-- One result of `conn.Write(p)`: the returned `n` and error. -/
structure WriteEvent where
  n : Nat
  err : Option OsError
  deriving DecidableEq, Repr

/-- The connection: the results its coming `Read` and `Write` calls produce, and the
byte strings handed to `Write` so far. -/
structure Conn where
  reads : List ReadEvent
  writes : List WriteEvent
  sent : List (List Nat)
  deriving DecidableEq, Repr

/-- Modelled from the spec: `ClientJob`, declared outside `client.go`; the spec's
packet is a direction, a type and a payload. -/
structure ClientJob where
  magicCode : Nat
  DataType : Nat
  Data : List Nat
  deriving DecidableEq, Repr

/-- The fields of `Client`; both channels are queues with the oldest entry first, and
`conn` is `none` while it is nil.  The mutex guards only the update of `UId`, which is
one step here. -/
structure Client where
  conn : Option Conn
  JobQueue : List ClientJob
  incoming : List Slice
  UId : Nat
  deriving DecidableEq, Repr

/-- The client `NewClient` makes. -/
def NewClient : Client := { conn := none, JobQueue := [], incoming := [], UId := 1 }

/-- The call `AddServer`, given what `net.Dial` returns. -/
def AddServer (client : Client) (dial : Except OsError Conn) : Option OsError × Client :=
  match dial with
  | Except.error e => (some e, client)
  | Except.ok conn => (none, { client with conn := some conn })

/-! ## `read` (lines 53-95) -/

/-- How the read loop of lines 59-72 ends: by `break`, with the accumulated data and
the value `err` then holds, or by the `return` of line 66. -/
inductive LoopExit where
  | brk (data : Slice) (err : Option OsError)
  | retn (data : Slice) (err : OsError)
  deriving DecidableEq, Repr

/-- The read loop of lines 59-72, run on the coming `Read` results with `data`
accumulated so far; it also yields the `Read` results not consumed. -/
def readLoop (c : Consts) : List ReadEvent → Slice → Res LoopExit × List ReadEvent
  | [], _ => (Res.blocked, [])
  | ev :: rest, data =>
    match ev.err with
    | some e =>
      if e = OsError.EOF ∧ ev.bytes.length = 0 then (Res.ret (LoopExit.brk data (some e)), rest)
      else (Res.ret (LoopExit.retn data e), rest)
    | none =>
      if c.BUFFER_SIZE < ev.bytes.length then (Res.panic, rest)
      else
        let data := data.append c ev.bytes
        if ev.bytes.length < c.BUFFER_SIZE then (Res.ret (LoopExit.brk data none), rest)
        else readLoop c rest data

/-- Lines 79-87: the magic was found at `start`. -/
def splitFound (c : Consts) (client : Client) (data : Slice) (err : Option OsError)
    (start : Nat) : Res (Slice × Option OsError) × Client :=
  match data.index ((start + 8 : Nat) : Int), data.index ((start + 9 : Nat) : Int),
      data.index ((start + 10 : Nat) : Int), data.index ((start + 11 : Nat) : Int) with
  | some b0, some b1, some b2, some b3 =>
    let l := toInt c (byteToUint32 b0 b1 b2 b3)
    let total := wrapInt c (l + 12)
    if total = data.len then (Res.ret (data, err), client)
    else
      match data.sliceFrom total with
      | none => (Res.panic, client)
      | some tail =>
        if client.incoming.length < c.QUEUE_CAP then
          let client := { client with incoming := client.incoming ++ [tail] }
          match data.sliceTo total with
          | none => (Res.panic, client)
          | some head => (Res.ret (head, err), client)
        else (Res.blocked, client)
  | _, _, _, _ => (Res.panic, client)

/-- The loop of lines 77-92 with `n` iterations left and the window at `start`, `stop`
(the variables `start` and `end`); line 93 when none is left. -/
def splitLoop (c : Consts) (client : Client) (data : Slice) (err : Option OsError) :
    Nat → Nat → Nat → Res (Slice × Option OsError) × Client
  | 0, _, _ => (Res.ret (data, some (OsError.NewError "Invalid data struct.")), client)
  | n + 1, start, stop =>
    match data.slice (start : Int) (stop : Int) with
    | none => (Res.panic, client)
    | some w =>
      if w.vis = RES_STR then splitFound c client data err start
      else splitLoop c client data err n (start + 1) (stop + 1)

/-- Lines 74-95: split one packet off the accumulated `data`; `err` is the value the
result variable holds on entry. -/
def readSplit (c : Consts) (client : Client) (data : Slice) (err : Option OsError) :
    Res (Slice × Option OsError) × Client :=
  splitLoop c client data err data.len 0 4

/-- The method `read`: the returned `data` and `err`, and the client left behind. -/
def read (c : Consts) (client : Client) : Res (Slice × Option OsError) × Client :=
  match client.incoming with
  | data :: rest => readSplit c { client with incoming := rest } data none
  | [] =>
    match client.conn with
    | none => (Res.panic, client)
    | some conn =>
      match readLoop c conn.reads Slice.empty with
      | (Res.ret (LoopExit.brk data err), reads) =>
        readSplit c { client with conn := some { conn with reads := reads } } data err
      | (Res.ret (LoopExit.retn data e), reads) =>
        (Res.ret (data, some e), { client with conn := some { conn with reads := reads } })
      | (Res.panic, reads) => (Res.panic, { client with conn := some { conn with reads := reads } })
      | (Res.blocked, reads) =>
        (Res.blocked, { client with conn := some { conn with reads := reads } })
      | (Res.timeout, reads) =>
        (Res.timeout, { client with conn := some { conn with reads := reads } })

/-! ## Packet codec (declared outside `client.go`) -/

/-- Modelled from the spec: `REQ_STR`, the request magic `\0REQ`. -/
def REQ_STR : List Nat := [0, 82, 69, 81]

/-- Modelled from the spec: `ClientJob.Encode`, declared outside `client.go`; the
packet is the magic, the type and the payload length as big-endian 32-bit numbers,
then the payload. -/
def ClientJob.Encode (job : ClientJob) : List Nat :=
  uint32ToByte job.magicCode ++ uint32ToByte job.DataType ++ uint32ToByte job.Data.length
    ++ job.Data

/-- Modelled from the spec: `NewClientJob`, declared outside `client.go`; it packs
direction, type and payload. -/
def NewClientJob (magiccode datatype : Nat) (data : List Nat) : ClientJob :=
  { magicCode := magiccode, DataType := datatype, Data := data }

/-- Modelled from the spec: `DecodeClientJob`, declared outside `client.go`; decoding
fails when the buffer is shorter than 12 bytes, when the magic is that of no direction,
or when the length field differs from the number of payload bytes present. -/
def DecodeClientJob (data : List Nat) : Except OsError ClientJob :=
  if data.length < 12 then Except.error (OsError.NewError "MalformedPacket")
  else if data.take 4 ≠ RES_STR ∧ data.take 4 ≠ REQ_STR then
    Except.error (OsError.NewError "MalformedPacket")
  else if byteToUint32 (data.getD 8 0) (data.getD 9 0) (data.getD 10 0) (data.getD 11 0)
      ≠ data.length - 12 then
    Except.error (OsError.NewError "MalformedPacket")
  else
    Except.ok (NewClientJob
      (byteToUint32 (data.getD 0 0) (data.getD 1 0) (data.getD 2 0) (data.getD 3 0))
      (byteToUint32 (data.getD 4 0) (data.getD 5 0) (data.getD 6 0) (data.getD 7 0))
      (data.drop 12))

/-- Modelled from the spec: `getError`, declared outside `client.go`; the payload of an
`ERROR` packet becomes a server error. -/
def getError (data : List Nat) : OsError := OsError.server data

/-! ## `ReadJob`, `WriteJob`, `readLastJob` -/

/-- The method `ReadJob` (lines 99-116): the returned `job` (`none` for nil) and `err`. -/
def ReadJob (c : Consts) (client : Client) :
    Res (Option ClientJob × Option OsError) × Client :=
  match read c client with
  | (Res.ret (_, some e), client) => (Res.ret (none, some e), client)
  | (Res.ret (rel, none), client) =>
    match DecodeClientJob rel.vis with
    | Except.error e => (Res.ret (none, some e), client)
    | Except.ok job =>
      if job.DataType = c.ERROR then (Res.ret (some job, some (getError job.Data)), client)
      else if job.DataType ∈ [c.WORK_DATA, c.WORK_WARNING, c.WORK_STATUS, c.WORK_COMPLETE,
          c.WORK_FAIL, c.WORK_EXCEPTION] then
        if client.JobQueue.length < c.QUEUE_CAP then
          (Res.ret (some job, none), { client with JobQueue := client.JobQueue ++ [job] })
        else (Res.blocked, client)
      else (Res.ret (some job, none), client)
  | (Res.panic, client) => (Res.panic, client)
  | (Res.blocked, client) => (Res.blocked, client)
  | (Res.timeout, client) => (Res.timeout, client)

/-- The loop of `write` (lines 263-268) at offset `i`, on the coming `Write` results;
it also yields the results not consumed and the byte strings handed to `Write`. -/
def writeLoop (buf : List Nat) :
    List WriteEvent → Nat → List (List Nat) → Res (Option OsError) × List WriteEvent × List (List Nat)
  | [], i, sent => if i < buf.length then (Res.blocked, [], sent) else (Res.ret none, [], sent)
  | ev :: rest, i, sent =>
    if i < buf.length then
      match ev.err with
      | some e => (Res.ret (some e), rest, sent ++ [buf.drop i])
      | none => writeLoop buf rest (i + ev.n) (sent ++ [buf.drop i])
    else (Res.ret none, ev :: rest, sent)

/-- The method `write` (lines 261-270). -/
def write (client : Client) (buf : List Nat) : Res (Option OsError) × Client :=
  match client.conn with
  | none => if 0 < buf.length then (Res.panic, client) else (Res.ret none, client)
  | some conn =>
    match writeLoop buf conn.writes 0 conn.sent with
    | (r, writes, sent) => (r, { client with conn := some { conn with writes := writes, sent := sent } })

/-- The method `WriteJob` (lines 256-258). -/
def WriteJob (client : Client) (job : ClientJob) : Res (Option OsError) × Client :=
  write client job.Encode

/-- The method `readLastJob` (lines 181-194), with `fuel` bounding the number of
`ReadJob` calls. -/
def readLastJob (c : Consts) (datatype : Nat) :
    Nat → Client → Res (Option ClientJob × Option OsError) × Client
  | 0, client => (Res.timeout, client)
  | fuel + 1, client =>
    match ReadJob c client with
    | (Res.ret (job, some e), client) => (Res.ret (job, some e), client)
    | (Res.ret (none, none), client) => (Res.panic, client)
    | (Res.ret (some job, none), client) =>
      if job.DataType = datatype then
        if job.DataType ≠ datatype then
          (Res.ret (some job, some (OsError.NewError "No job got.")), client)
        else (Res.ret (some job, none), client)
      else readLastJob c datatype fuel client
    | (Res.panic, client) => (Res.panic, client)
    | (Res.blocked, client) => (Res.blocked, client)
    | (Res.timeout, client) => (Res.timeout, client)

/-! ## `Do` (lines 124-178) -/

/-- Lines 125-153 of `Do`: the job handed to `WriteJob` and the client after the
counter update. -/
def doRequest (c : Consts) (client : Client) (funcname data : List Nat) (flag : Nat) :
    ClientJob × Client :=
  let datatype := submitType c flag
  let rel : List Nat := []
  let rel := rel ++ funcname
  let rel := rel ++ [0]
  let uid := Itoa (toInt c client.UId)
  let client := { client with UId := (client.UId + 1) % 2 ^ 32 }
  let rel := rel ++ uid
  let rel := rel ++ [0]
  let rel := rel ++ data
  (NewClientJob c.REQ datatype rel, client)

/-- The method `Do` up to its `return`: the returned `handle` and `err`.  The task
started at line 162 runs after that. -/
def Do (c : Consts) (client : Client) (funcname data : List Nat) (flag : Nat) (fuel : Nat) :
    Res (List Nat × Option OsError) × Client :=
  match doRequest c client funcname data flag with
  | (request, client) =>
    match WriteJob client request with
    | (Res.ret (some e), client) => (Res.ret ([], some e), client)
    | (Res.ret none, client) =>
      match readLastJob c c.JOB_CREATED fuel client with
      | (Res.ret (_, some e), client) => (Res.ret ([], some e), client)
      | (Res.ret (none, none), client) => (Res.panic, client)
      | (Res.ret (some job, none), client) => (Res.ret (job.Data, none), client)
      | (Res.panic, client) => (Res.panic, client)
      | (Res.blocked, client) => (Res.blocked, client)
      | (Res.timeout, client) => (Res.timeout, client)
    | (Res.panic, client) => (Res.panic, client)
    | (Res.blocked, client) => (Res.blocked, client)
    | (Res.timeout, client) => (Res.timeout, client)

/-! ## Sequences of `Do` calls -/

/-- The clients a program can hold after `k` calls of `Do` on a client made by
`NewClient`: between the calls anything may happen to the client that leaves `UId`
alone (in `client.go` only `NewClient` and `Do` assign `UId`). -/
inductive AfterCalls (c : Consts) : Nat → Client → Prop where
  | fresh : AfterCalls c 0 NewClient
  | other (k : Nat) (client client' : Client) :
      AfterCalls c k client → client'.UId = client.UId → AfterCalls c k client'
  | call (k : Nat) (client : Client) (funcname data : List Nat) (flag fuel : Nat) :
      AfterCalls c k client → AfterCalls c (k + 1) (Do c client funcname data flag fuel).2

/-- The `int` value whose numeral `Do` puts into the request as the unique id
(line 148): the counter converted to `int`. -/
def requestId (c : Consts) (client : Client) : Int := toInt c client.UId

/-- A connected client for the examples: the given `Read` and `Write` results, nothing
sent, both queues empty. -/
def connected (reads : List ReadEvent) (writes : List WriteEvent) (uid : Nat) : Client :=
  { conn := some { reads := reads, writes := writes, sent := [] },
    JobQueue := [], incoming := [], UId := uid }

/-! ## Vocabulary of the framing claims -/

/-- A valid encoded response packet in the words of the specification: the response
magic, the type and the payload length as big-endian 32-bit numbers, then the payload. -/
def response (ty : Nat) (payload : List Nat) : List Nat :=
  RES_STR ++ uint32ToByte ty ++ uint32ToByte payload.length ++ payload

/-- The length field of an accumulated buffer whose packet starts at offset 0: the
big-endian number in bytes 8 to 11. -/
def lengthField (data : List Nat) : Nat :=
  byteToUint32 (data.getD 8 0) (data.getD 9 0) (data.getD 10 0) (data.getD 11 0)

/-- A `Read` result that carries bytes and no error. -/
def chunk (bytes : List Nat) : ReadEvent := { bytes := bytes, err := none }

/-- The slice the read loop holds after appending the given chunks in turn. -/
def accumulate (c : Consts) (acc : Slice) (chunks : List (List Nat)) : Slice :=
  chunks.foldl (fun s ch => s.append c ch) acc

/-- The error of line 93. -/
def invalidFraming : OsError := OsError.NewError "Invalid data struct."

/-! ## The task `Do` starts (lines 162-176) -/

/-- The loop of lines 164-174, with `fuel` bounding the number of `ReadJob` calls. -/
def drainLoop (c : Consts) : Nat → Client → Res Unit × Client
  | 0, client => (Res.timeout, client)
  | fuel + 1, client =>
    match ReadJob c client with
    | (Res.ret (_, some _), client) => (Res.ret (), client)
    | (Res.ret (none, none), client) => (Res.panic, client)
    | (Res.ret (some job, none), client) =>
      if job.DataType = c.WORK_DATA ∨ job.DataType = c.WORK_WARNING then
        drainLoop c fuel client
      else if job.DataType = c.WORK_STATUS then drainLoop c fuel client
      else if job.DataType = c.WORK_COMPLETE ∨ job.DataType = c.WORK_FAIL
          ∨ job.DataType = c.WORK_EXCEPTION then (Res.ret (), client)
      else drainLoop c fuel client
    | (Res.panic, client) => (Res.panic, client)
    | (Res.blocked, client) => (Res.blocked, client)
    | (Res.timeout, client) => (Res.timeout, client)

/-- The function started by `go` at line 162, run on the client `Do` left. -/
def drainTask (c : Consts) (flag : Nat) (fuel : Nat) (client : Client) : Res Unit × Client :=
  if flag &&& c.JOB_BG ≠ c.JOB_BG then drainLoop c fuel client
  else (Res.ret (), client)

/-! ## `Status` (lines 198-225) -/

/-- Modelled from the spec: `splitByteArray`, declared outside `client.go`; the payload
is cut at every separator byte, so `n` separators give `n + 1` fields, empty ones
included. -/
def splitByteArray : List Nat → Nat → List (List Nat)
  | [], _ => [[]]
  | b :: bs, spot =>
    if b = spot then [] :: splitByteArray bs spot
    else
      match splitByteArray bs spot with
      | [] => [[b]]
      | f :: fs => (b :: f) :: fs

/-- The call `strconv.Atoui(string(b))` for a byte `b`: `string(b)` is the string of
the one character with code `b`, which is a numeral exactly when `b` is an ASCII digit. -/
def atouiOfByte (b : Nat) : Except OsError Nat :=
  if 48 ≤ b ∧ b ≤ 57 then Except.ok (b - 48) else Except.error (OsError.strconv b)

/-- What `Status` returns: `known`, `running`, `numerator`, `denominator`, `err`. -/
structure StatusResult where
  known : Bool
  running : Bool
  numerator : Nat
  denominator : Nat
  err : Option OsError
  deriving DecidableEq, Repr

/-- Lines 208-224 on the fields `data` that `splitByteArray` returned; `f[0]` on an
empty field is out of range. -/
def statusFields (handle : List Nat) (data : List (List Nat)) : Res StatusResult :=
  match data with
  | [f0, f1, f2, f3, f4] =>
    if handle ≠ f0 then
      Res.ret ⟨false, false, 0, 0, some (OsError.NewError "Invalid handle.")⟩
    else
      match f1.head? with
      | none => Res.panic
      | some k =>
        match f2.head? with
        | none => Res.panic
        | some r =>
          match f3.head? with
          | none => Res.panic
          | some n =>
            match atouiOfByte n with
            | Except.error e => Res.ret ⟨decide (k = 49), decide (r = 49), 0, 0, some e⟩
            | Except.ok numerator =>
              match f4.head? with
              | none => Res.panic
              | some d =>
                match atouiOfByte d with
                | Except.error e =>
                  Res.ret ⟨decide (k = 49), decide (r = 49), numerator, 0, some e⟩
                | Except.ok denominator =>
                  Res.ret ⟨decide (k = 49), decide (r = 49), numerator, denominator, none⟩
  | _ => Res.ret ⟨false, false, 0, 0, some (OsError.NewError "Data Error.")⟩

/-- The method `Status`, with `fuel` bounding the `ReadJob` calls of `readLastJob`. -/
def Status (c : Consts) (client : Client) (handle : List Nat) (fuel : Nat) :
    Res StatusResult × Client :=
  match WriteJob client (NewClientJob c.REQ c.GET_STATUS handle) with
  | (Res.ret (some e), client) => (Res.ret ⟨false, false, 0, 0, some e⟩, client)
  | (Res.ret none, client) =>
    match readLastJob c c.STATUS_RES fuel client with
    | (Res.ret (_, some e), client) => (Res.ret ⟨false, false, 0, 0, some e⟩, client)
    | (Res.ret (none, none), client) => (Res.panic, client)
    | (Res.ret (some job, none), client) =>
      (statusFields handle (splitByteArray job.Data 0), client)
    | (Res.panic, client) => (Res.panic, client)
    | (Res.blocked, client) => (Res.blocked, client)
    | (Res.timeout, client) => (Res.timeout, client)
  | (Res.panic, client) => (Res.panic, client)
  | (Res.blocked, client) => (Res.blocked, client)
  | (Res.timeout, client) => (Res.timeout, client)

/-! ## `LastJob` (lines 243-253) -/

/-- The loop of lines 248-250 with `n` iterations left: each receives one entry of
`JobQueue` and drops it; a receive on the empty channel blocks. -/
def lastJobLoop : Nat → Client → Res Unit × Client
  | 0, client => (Res.ret (), client)
  | n + 1, client =>
    match client.JobQueue with
    | [] => (Res.blocked, client)
    | _ :: queue => lastJobLoop n { client with JobQueue := queue }

/-- The receive of line 252. -/
def lastJobReceive (client : Client) : Res (Option ClientJob) × Client :=
  match client.JobQueue with
  | [] => (Res.blocked, client)
  | job :: queue => (Res.ret (some job), { client with JobQueue := queue })

/-- The method `LastJob`: the returned job, `none` for nil. -/
def LastJob (client : Client) : Res (Option ClientJob) × Client :=
  if client.JobQueue.length ≠ 1 then
    if client.JobQueue.length = 0 then (Res.ret none, client)
    else
      match lastJobLoop (client.JobQueue.length - 1) client with
      | (Res.ret (), client) => lastJobReceive client
      | (Res.panic, client) => (Res.panic, client)
      | (Res.blocked, client) => (Res.blocked, client)
      | (Res.timeout, client) => (Res.timeout, client)
  else lastJobReceive client

/-! ## Vocabulary of the dispatch claims -/

/-- The six types of work updates that `ReadJob` queues. -/
def workTypes (c : Consts) : List Nat :=
  [c.WORK_DATA, c.WORK_WARNING, c.WORK_STATUS, c.WORK_COMPLETE, c.WORK_FAIL, c.WORK_EXCEPTION]

/-- The three types of work updates after which more updates follow. -/
def progressTypes (c : Consts) : List Nat := [c.WORK_DATA, c.WORK_WARNING, c.WORK_STATUS]

/-- The three types of work updates that end a job. -/
def terminalTypes (c : Consts) : List Nat := [c.WORK_COMPLETE, c.WORK_FAIL, c.WORK_EXCEPTION]

/-- What the next `n` calls of `ReadJob` return, as long as they return. -/
def readJobOutcomes (c : Consts) : Nat → Client → List (Option ClientJob × Option OsError)
  | 0, _ => []
  | n + 1, client =>
    match ReadJob c client with
    | (Res.ret r, client) => r :: readJobOutcomes c n client
    | _ => []

/-- The client after `n` calls of `ReadJob`. -/
def afterReadJobs (c : Consts) : Nat → Client → Client
  | 0, client => client
  | n + 1, client => afterReadJobs c n (ReadJob c client).2

/-- In a sequence of `ReadJob` outcomes: the first job whose type is `t` when no
outcome before it is an error, and otherwise the first error. -/
def firstMatchOrError (t : Nat) :
    List (Option ClientJob × Option OsError) → Option (Option ClientJob × Option OsError)
  | [] => none
  | (job, some e) :: _ => some (job, some e)
  | (some job, none) :: rest =>
    if job.DataType = t then some (some job, none) else firstMatchOrError t rest
  | (none, none) :: _ => none

/-- The number encoded by the response magic, the direction of a decoded response. -/
def RES : Nat := byteToUint32 0 82 69 83

/-! # Theorems -/

/-! ## Flags to submission type: theorems -/

/-- C1: for every flag the submission type `Do` sends is the wire type of the priority
the flag bits name (LOW when the `JOB_LOW` bit is set, otherwise HIGH when the
`JOB_HIGH` bit is set, otherwise normal), in its background variant when the `JOB_BG`
bit is set and its foreground variant otherwise; it is one of the six submission
types, and, the six types being distinct, it is a background type exactly when the
`JOB_BG` bit is set. -/
theorem submitType_by_flag_bits (c : Consts) (flag : Nat) :
    submitType c flag = wireType c (flagPriority c flag) (flagBackground c flag)
      ∧ submitType c flag ∈ submitTypes c
      ∧ ((submitTypes c).Nodup →
          (submitType c flag ∈ backgroundTypes c ↔ flag &&& c.JOB_BG = c.JOB_BG)) := by
  refine ⟨?_, ?_, ?_⟩
  · unfold submitType flagPriority flagBackground
    by_cases hl : flag &&& c.JOB_LOW = c.JOB_LOW <;>
      by_cases hh : flag &&& c.JOB_HIGH = c.JOB_HIGH <;>
      by_cases hb : flag &&& c.JOB_BG = c.JOB_BG <;>
      simp [hl, hh, hb, wireType]
  · unfold submitType submitTypes
    by_cases hl : flag &&& c.JOB_LOW = c.JOB_LOW <;>
      by_cases hh : flag &&& c.JOB_HIGH = c.JOB_HIGH <;>
      by_cases hb : flag &&& c.JOB_BG = c.JOB_BG <;>
      simp [hl, hh, hb]
  · intro hd
    simp only [submitTypes, List.nodup_cons, List.mem_cons, List.mem_singleton, not_or,
      List.not_mem_nil, not_false_eq_true, List.nodup_nil, and_true, or_false] at hd
    obtain ⟨⟨h1, h2, h3, h4, h5⟩, ⟨h6, h7, h8, h9⟩, ⟨h10, h11, h12⟩, ⟨h13, h14⟩, h15⟩ := hd
    unfold submitType backgroundTypes
    by_cases hl : flag &&& c.JOB_LOW = c.JOB_LOW <;>
      by_cases hh : flag &&& c.JOB_HIGH = c.JOB_HIGH <;>
      by_cases hb : flag &&& c.JOB_BG = c.JOB_BG <;>
      simp [hl, hh, hb, h1, h2, h3, h4, h5, h6, h7, h8, h9, h10, h11, h12, h13,
        h14, h15, Ne.symm h1, Ne.symm h2, Ne.symm h3, Ne.symm h4, Ne.symm h5, Ne.symm h6,
        Ne.symm h7, Ne.symm h8, Ne.symm h9, Ne.symm h10, Ne.symm h11, Ne.symm h12,
        Ne.symm h13, Ne.symm h14, Ne.symm h15]

/-- Witness of C1 at the sample constants, whose six submission types are distinct: the
flag `JOB_LOW | JOB_BG` (3) gives the background type `SUBMIT_JOB_LOW_BG` (34), the flag
`JOB_HIGH` (4) the foreground type `SUBMIT_JOB_HIGH` (21). -/
theorem submitType_by_flag_bits_witness :
    (submitTypes gearman32).Nodup ∧ submitType gearman32 3 = 34 ∧ submitType gearman32 4 = 21
      ∧ (submitType gearman32 3 ∈ backgroundTypes gearman32
          ↔ 3 &&& gearman32.JOB_BG = gearman32.JOB_BG)
      ∧ (submitType gearman32 4 ∈ backgroundTypes gearman32
          ↔ 4 &&& gearman32.JOB_BG = gearman32.JOB_BG) :=
  ⟨by decide, by decide, by decide,
    (submitType_by_flag_bits gearman32 3).2.2 (by decide),
    (submitType_by_flag_bits gearman32 4).2.2 (by decide)⟩

/-! ## The unique-id counter and the request payload -/

/-- Converting to `int` keeps every value below `2 ^ (intBits - 1)`. -/
theorem toInt_of_small (c : Consts) (u : Nat) (hu : u < 2 ^ (c.intBits - 1)) :
    toInt c u = (u : Int) := by
  unfold toInt wrapInt
  have hpow : (2 : Nat) ^ (c.intBits - 1) ≤ 2 ^ c.intBits :=
    Nat.pow_le_pow_right (by decide) (Nat.sub_le _ _)
  have hlt : (u : Int) < ((2 ^ c.intBits : Nat) : Int) := by exact_mod_cast lt_of_lt_of_le hu hpow
  have hmod : (u : Int) % (2 ^ c.intBits) = u := by
    apply Int.emod_eq_of_lt (by positivity)
    simpa using hlt
  simp only [hmod]
  have h2 : 2 * u < 2 ^ c.intBits ∨ c.intBits = 0 := by
    rcases Nat.eq_zero_or_pos c.intBits with h0 | hpos
    · right; exact h0
    · left
      have : 2 ^ c.intBits = 2 * 2 ^ (c.intBits - 1) := by
        conv_lhs => rw [← Nat.sub_add_cancel hpos]
        rw [pow_succ]; ring
      omega
  rcases h2 with h2 | h0
  · have : (2 : Int) * u < 2 ^ c.intBits := by exact_mod_cast h2
    simp [this]
  · rw [h0] at hu ⊢
    simp at hu
    subst hu
    simp

/-- `Itoa` of a non-negative value is its decimal numeral. -/
theorem Itoa_natCast (u : Nat) : Itoa (u : Int) = decimal u := by
  unfold Itoa
  simp

/-- Splitting a packet at a found magic leaves `UId` alone. -/
theorem splitFound_UId (c : Consts) (client : Client) (data : Slice) (err : Option OsError)
    (start : Nat) : (splitFound c client data err start).2.UId = client.UId := by
  unfold splitFound
  split
  · dsimp only
    split
    · rfl
    · split
      · rfl
      · split
        · split <;> rfl
        · rfl
  · rfl

/-- The split loop leaves `UId` alone. -/
theorem splitLoop_UId (c : Consts) (client : Client) (data : Slice) (err : Option OsError)
    (n start stop : Nat) : (splitLoop c client data err n start stop).2.UId = client.UId := by
  induction n generalizing start stop with
  | zero => rfl
  | succ n ih =>
    unfold splitLoop
    split
    · rfl
    · split
      · exact splitFound_UId c client data err start
      · exact ih _ _

/-- The method `read` leaves `UId` alone, however it ends. -/
theorem read_UId (c : Consts) (client : Client) : (read c client).2.UId = client.UId := by
  unfold read
  split
  · exact splitLoop_UId _ _ _ _ _ _ _
  · split
    · rfl
    · split
      · exact splitLoop_UId _ _ _ _ _ _ _
      all_goals rfl

/-- The method `ReadJob` leaves `UId` alone, however it ends. -/
theorem ReadJob_UId (c : Consts) (client : Client) : (ReadJob c client).2.UId = client.UId := by
  have h := read_UId c client
  unfold ReadJob
  split <;> rename_i heq <;> rw [heq] at h <;> simp only at h
  · exact h
  · split
    · exact h
    · split
      · exact h
      · split
        · split
          · exact h
          · exact h
        · exact h
  all_goals exact h

/-- The method `readLastJob` leaves `UId` alone, however it ends. -/
theorem readLastJob_UId (c : Consts) (datatype fuel : Nat) (client : Client) :
    (readLastJob c datatype fuel client).2.UId = client.UId := by
  induction fuel generalizing client with
  | zero => rfl
  | succ fuel ih =>
    have h := ReadJob_UId c client
    unfold readLastJob
    split <;> rename_i heq <;> rw [heq] at h <;> simp only at h
    · exact h
    · exact h
    · split
      · split <;> exact h
      · rw [ih]; exact h
    all_goals exact h

/-- The method `WriteJob` leaves `UId` alone, however it ends. -/
theorem WriteJob_UId (client : Client) (job : ClientJob) :
    (WriteJob client job).2.UId = client.UId := by
  unfold WriteJob write
  split
  · split <;> rfl
  · rfl

/-- Building the request adds one to `UId`, modulo `2 ^ 32`. -/
theorem doRequest_UId (c : Consts) (client : Client) (funcname data : List Nat) (flag : Nat) :
    (doRequest c client funcname data flag).2.UId = (client.UId + 1) % 2 ^ 32 := rfl

/-- The method `Do` adds one to `UId`, modulo `2 ^ 32`, however it ends. -/
theorem Do_UId (c : Consts) (client : Client) (funcname data : List Nat) (flag fuel : Nat) :
    (Do c client funcname data flag fuel).2.UId = (client.UId + 1) % 2 ^ 32 := by
  have h0 := doRequest_UId c client funcname data flag
  unfold Do
  generalize doRequest c client funcname data flag = rq at h0
  obtain ⟨request, cl1⟩ := rq
  simp only at h0 ⊢
  have h1 := WriteJob_UId cl1 request
  split <;> rename_i heq <;> rw [heq] at h1 <;> simp only at h1
  · rw [h1, h0]
  · rename_i cl2
    have h2 := readLastJob_UId c c.JOB_CREATED fuel cl2
    split <;> rename_i heq2 <;> rw [heq2] at h2 <;> simp only at h2 <;> rw [h2, h1, h0]
  all_goals rw [h1, h0]

/-- The ASCII code of a decimal digit character. -/
theorem digitChar_toNat (m : Nat) (h : m < 10) :
    (Nat.digitChar m).toNat = m + 48 := by
  interval_cases m <;> rfl

/-- The digits are put in front of the accumulator. -/
theorem toDigitsCore_append (fuel : Nat) : ∀ (n : Nat) (ds : List Char),
    Nat.toDigitsCore 10 fuel n ds = Nat.toDigitsCore 10 fuel n [] ++ ds := by
  induction fuel with
  | zero => intro n ds; rfl
  | succ fuel ih =>
    intro n ds
    simp only [Nat.toDigitsCore]
    split
    · rfl
    · rw [ih (n / 10) (_ :: ds), ih (n / 10) [_]]
      simp

/-- Reading one more digit. -/
theorem parseDecimal_snoc (bs : List Nat) (b : Nat) :
    parseDecimal (bs ++ [b]) = 10 * parseDecimal bs + (b - 48) := by
  simp [parseDecimal, List.foldl_append]

/-- Reading back the digits of a number gives the number. -/
theorem parseDecimal_toDigitsCore (fuel : Nat) : ∀ n : Nat, n < fuel →
    parseDecimal ((Nat.toDigitsCore 10 fuel n []).map Char.toNat) = n := by
  induction fuel with
  | zero => intro n h; omega
  | succ fuel ih =>
    intro n h
    simp only [Nat.toDigitsCore]
    have hd := digitChar_toNat (n % 10) (Nat.mod_lt _ (by decide))
    split
    · rename_i h0
      simp only [List.map_cons, List.map_nil, parseDecimal, List.foldl_cons, List.foldl_nil, hd]
      omega
    · rename_i h0
      rw [toDigitsCore_append, List.map_append, List.map_cons, List.map_nil, parseDecimal_snoc,
        ih (n / 10) (by omega), hd]
      omega

/-- Reading back a decimal numeral gives the number. -/
theorem parseDecimal_decimal (n : Nat) : parseDecimal (decimal n) = n :=
  parseDecimal_toDigitsCore (n + 1) n (Nat.lt_succ_self n)

/-- Different numbers have different decimal numerals. -/
theorem decimal_injective (m n : Nat) (h : decimal m = decimal n) : m = n := by
  rw [← parseDecimal_decimal m, ← parseDecimal_decimal n, h]

/-- Every character of a numeral has an ASCII code of at least 48. -/
theorem toDigitsCore_digits (fuel : Nat) : ∀ (n : Nat) (ds : List Char),
    (∀ ch ∈ ds, 48 ≤ ch.toNat) → ∀ ch ∈ Nat.toDigitsCore 10 fuel n ds, 48 ≤ ch.toNat := by
  induction fuel with
  | zero => intro n ds h; exact h
  | succ fuel ih =>
    intro n ds h
    have hd := digitChar_toNat (n % 10) (Nat.mod_lt _ (by decide))
    have hcons : ∀ ch ∈ Nat.digitChar (n % 10) :: ds, 48 ≤ ch.toNat := by
      intro ch hch
      rcases List.mem_cons.mp hch with rfl | hch
      · omega
      · exact h ch hch
    simp only [Nat.toDigitsCore]
    split
    · exact hcons
    · exact ih _ _ hcons

/-- No byte of a decimal numeral is a minus sign. -/
theorem decimal_ge (n : Nat) : ∀ b ∈ decimal n, 48 ≤ b := by
  intro b hb
  obtain ⟨ch, hch, rfl⟩ := List.mem_map.mp hb
  exact toDigitsCore_digits (n + 1) n [] (by simp) ch hch

/-- Different `int` values are rendered differently by `strconv.Itoa`. -/
theorem Itoa_injective (i j : Int) (h : Itoa i = Itoa j) : i = j := by
  unfold Itoa at h
  by_cases hi : i < 0 <;> by_cases hj : j < 0
  · rw [if_pos hi, if_pos hj] at h
    have := decimal_injective _ _ (List.cons.inj h).2
    omega
  · rw [if_pos hi, if_neg hj] at h
    have := decimal_ge j.toNat 45 (by rw [← h]; exact List.mem_cons_self _ _)
    omega
  · rw [if_neg hi, if_pos hj] at h
    have := decimal_ge i.toNat 45 (by rw [h]; exact List.mem_cons_self _ _)
    omega
  · rw [if_neg hi, if_neg hj] at h
    have := decimal_injective _ _ h
    omega

/-- With `int` at least 32 bits wide, different `uint32` values convert to different `int` values. -/
theorem toInt_injective (c : Consts) (hb : 32 ≤ c.intBits) (u v : Nat)
    (hu : u < 2 ^ 32) (hv : v < 2 ^ 32) (h : toInt c u = toInt c v) : u = v := by
  unfold toInt wrapInt at h
  have hpow : (2 : Nat) ^ 32 ≤ 2 ^ c.intBits := Nat.pow_le_pow_right (by decide) hb
  have hm : ((2 : Int) ^ c.intBits) = ((2 ^ c.intBits : Nat) : Int) := by push_cast; rfl
  simp only [hm] at h
  generalize 2 ^ c.intBits = m at hpow h
  have hum : (u : Int) % (m : Int) = u := Int.emod_eq_of_lt (by omega) (by omega)
  have hvm : (v : Int) % (m : Int) = v := Int.emod_eq_of_lt (by omega) (by omega)
  simp only [hum, hvm] at h
  split at h <;> split at h <;> omega

/-- The payload of the request `Do` builds, for every counter value: the counter is
rendered after its conversion to `int`. -/
theorem doRequest_Data (c : Consts) (client : Client) (funcname data : List Nat) (flag : Nat) :
    (doRequest c client funcname data flag).1.Data
      = funcname ++ [0] ++ Itoa (toInt c client.UId) ++ [0] ++ data := by
  simp [doRequest, NewClientJob]

/-- C2, counterexample: with a 32-bit `int` and the counter at `2 ^ 31`, the payload
`Do` builds for function `f` and data `d` carries the numeral `-2147483648`, not the
decimal string of the counter. -/
theorem doRequest_payload_negative_id :
    (doRequest gearman32 (connected [] [] 2147483648) [102] [100] 0).1.Data
        = [102, 0, 45, 50, 49, 52, 55, 52, 56, 51, 54, 52, 56, 0, 100]
      ∧ (doRequest gearman32 (connected [] [] 2147483648) [102] [100] 0).1.Data
        ≠ [102] ++ [0] ++ decimal 2147483648 ++ [0] ++ [100] := by
  decide

/-- C2, amended: for every function name, data payload and counter value `u` that
`int` represents (`u < 2 ^ (intBits - 1)`), the request `Do` hands to `WriteJob` has
as payload the function name, one NUL byte, the decimal string of `u`, one NUL byte
and the data unchanged, and has direction `REQ`. -/
theorem doRequest_payload (c : Consts) (client : Client) (funcname data : List Nat)
    (flag : Nat) (hu : client.UId < 2 ^ (c.intBits - 1)) :
    (doRequest c client funcname data flag).1.Data
        = funcname ++ [0] ++ decimal client.UId ++ [0] ++ data
      ∧ (doRequest c client funcname data flag).1.magicCode = c.REQ := by
  refine ⟨?_, rfl⟩
  rw [doRequest_Data, toInt_of_small c _ hu, Itoa_natCast]

/-- Witness of C2: the first request of a client, for function `f` and data `d`, has
payload `f NUL 1 NUL d`; with a 64-bit `int` the counter value `2 ^ 31` is rendered as
`2147483648`. -/
theorem doRequest_payload_witness :
    ((connected [] [] 1).UId < 2 ^ (gearman32.intBits - 1)
      ∧ (doRequest gearman32 (connected [] [] 1) [102] [100] 0).1.Data = [102, 0, 49, 0, 100]
      ∧ (doRequest gearman32 (connected [] [] 1) [102] [100] 0).1.magicCode = 5391697)
    ∧ (doRequest gearman64 (connected [] [] 2147483648) [102] [100] 0).1.Data
        = [102, 0, 50, 49, 52, 55, 52, 56, 51, 54, 52, 56, 0, 100] :=
  ⟨⟨by decide, doRequest_payload gearman32 (connected [] [] 1) [102] [100] 0 (by decide)⟩,
    (doRequest_payload gearman64 (connected [] [] 2147483648) [102] [100] 0 (by decide)).1⟩

/-- After `k` calls of `Do` the counter is `k + 1` modulo `2 ^ 32`. -/
theorem AfterCalls_UId (c : Consts) (k : Nat) (client : Client) (h : AfterCalls c k client) :
    client.UId = (k + 1) % 2 ^ 32 := by
  induction h with
  | fresh => rfl
  | other k client client' _ heq ih => rw [heq, ih]
  | call k client funcname data flag fuel _ ih =>
    rw [Do_UId, ih]
    omega

/-- Every number of calls is reached: each call here returns a write error. -/
theorem AfterCalls_exists (c : Consts) (k : Nat) : ∃ client, AfterCalls c k client := by
  induction k with
  | zero => exact ⟨NewClient, AfterCalls.fresh⟩
  | succ k ih =>
    obtain ⟨client, h⟩ := ih
    exact ⟨_, AfterCalls.call k
      (connected [] [⟨0, some (OsError.transport 1)⟩] client.UId) [] [] 0 0
      (AfterCalls.other k client _ h rfl)⟩

/-- C3, counterexample: with a 32-bit `int`, a client on which `Do` was called
`2 ^ 31 - 1` times has its counter at `2 ^ 31`, and the next call, the `2 ^ 31`-th,
carries the id `-2147483648`, not `2147483648`; that id is smaller than the id 1 of the
first call. -/
theorem uid_counter_negative_id :
    ∃ client : Client, AfterCalls gearman32 2147483647 client
      ∧ client.UId = 2147483648
      ∧ (doRequest gearman32 client [102] [100] 0).1.Data
        = [102, 0, 45, 50, 49, 52, 55, 52, 56, 51, 54, 52, 56, 0, 100]
      ∧ (doRequest gearman32 client [102] [100] 0).1.Data
        ≠ [102] ++ [0] ++ decimal 2147483648 ++ [0] ++ [100]
      ∧ requestId gearman32 client < requestId gearman32 NewClient := by
  obtain ⟨client, h⟩ := AfterCalls_exists gearman32 2147483647
  have hU : client.UId = 2147483648 := by
    rw [AfterCalls_UId gearman32 _ client h]
    decide
  refine ⟨client, h, hU, ?_, ?_, ?_⟩
  · rw [doRequest_Data, hU]
    decide
  · rw [doRequest_Data, hU]
    decide
  · unfold requestId
    rw [hU]
    decide

/-- C3, amended: a client made by `NewClient` has its counter at 1; every call of `Do`
puts the current counter value, converted to `int`, into its request as the id and
leaves the counter one higher (modulo `2 ^ 32`), whether it returns a handle, returns a
write or read error, or does not return; hence the call made after `k` earlier calls
finds the counter at `k + 1` while `k + 1 < 2 ^ 32`, and carries the id `k + 1`,
written as its decimal numeral, while also `k + 1 < 2 ^ (intBits - 1)`; of two such
calls the later carries the larger id, and of any two calls below `2 ^ 32` the id
strings differ when `int` has at least 32 bits.  The three runs at the end fail on the
write, fail on the read, and succeed. -/
theorem uid_counter (c : Consts) :
    NewClient.UId = 1
      ∧ (∀ (client : Client) (funcname data : List Nat) (flag fuel : Nat),
          (doRequest c client funcname data flag).1.Data
              = funcname ++ [0] ++ Itoa (requestId c client) ++ [0] ++ data
            ∧ (Do c client funcname data flag fuel).2.UId = (client.UId + 1) % 2 ^ 32
            ∧ (client.UId + 1 < 2 ^ 32 →
                (Do c client funcname data flag fuel).2.UId = client.UId + 1))
      ∧ (∀ (k : Nat) (client : Client), AfterCalls c k client → k + 1 < 2 ^ 32 →
          client.UId = k + 1
            ∧ (k + 1 < 2 ^ (c.intBits - 1) →
                requestId c client = ((k + 1 : Nat) : Int)
                  ∧ ∀ (funcname data : List Nat) (flag : Nat),
                    (doRequest c client funcname data flag).1.Data
                      = funcname ++ [0] ++ decimal (k + 1) ++ [0] ++ data))
      ∧ (∀ (j k : Nat) (cj ck : Client), AfterCalls c j cj → AfterCalls c k ck →
          j < k → k + 1 < 2 ^ 32 →
          cj.UId < ck.UId
            ∧ (k + 1 < 2 ^ (c.intBits - 1) → requestId c cj < requestId c ck)
            ∧ (32 ≤ c.intBits → Itoa (requestId c cj) ≠ Itoa (requestId c ck)))
      ∧ Do gearman32 (connected [] [⟨0, some (OsError.transport 1)⟩] 1) [102] [100] 0 1
          = (Res.ret ([], some (OsError.transport 1)),
              { conn := some { reads := [], writes := [],
                               sent := [[0, 82, 69, 81, 0, 0, 0, 7, 0, 0, 0, 5, 102, 0, 49, 0, 100]] },
                JobQueue := [], incoming := [], UId := 2 })
      ∧ Do gearman32 (connected [⟨[], some (OsError.transport 2)⟩] [⟨17, none⟩] 1)
            [102] [100] 0 1
          = (Res.ret ([], some (OsError.transport 2)),
              { conn := some { reads := [], writes := [],
                               sent := [[0, 82, 69, 81, 0, 0, 0, 7, 0, 0, 0, 5, 102, 0, 49, 0, 100]] },
                JobQueue := [], incoming := [], UId := 2 })
      ∧ Do gearman32
            (connected [⟨[0, 82, 69, 83, 0, 0, 0, 8, 0, 0, 0, 3, 72, 58, 49], none⟩]
              [⟨17, none⟩] 1) [102] [100] 0 1
          = (Res.ret ([72, 58, 49], none),
              { conn := some { reads := [], writes := [],
                               sent := [[0, 82, 69, 81, 0, 0, 0, 7, 0, 0, 0, 5, 102, 0, 49, 0, 100]] },
                JobQueue := [], incoming := [], UId := 2 }) := by
  refine ⟨rfl, ?_, ?_, ?_, by decide, by decide, by decide⟩
  · intro client funcname data flag fuel
    refine ⟨doRequest_Data c client funcname data flag, Do_UId c client funcname data flag fuel, ?_⟩
    intro h
    rw [Do_UId, Nat.mod_eq_of_lt h]
  · intro k client h hk
    have hU : client.UId = k + 1 := by
      rw [AfterCalls_UId c k client h, Nat.mod_eq_of_lt hk]
    refine ⟨hU, ?_⟩
    intro hsmall
    have hid : requestId c client = ((k + 1 : Nat) : Int) := by
      unfold requestId
      rw [hU, toInt_of_small c _ hsmall]
    refine ⟨hid, ?_⟩
    intro funcname data flag
    rw [doRequest_Data]
    have : toInt c client.UId = ((k + 1 : Nat) : Int) := hid
    rw [this, Itoa_natCast]
  · intro j k cj ck hj hk hjk hk2
    have ej : cj.UId = j + 1 := by
      rw [AfterCalls_UId c j cj hj, Nat.mod_eq_of_lt (by omega)]
    have ek : ck.UId = k + 1 := by
      rw [AfterCalls_UId c k ck hk, Nat.mod_eq_of_lt hk2]
    refine ⟨by omega, ?_, ?_⟩
    · intro hsmall
      unfold requestId
      rw [ej, ek, toInt_of_small c _ hsmall, toInt_of_small c _ (by omega)]
      exact_mod_cast (by omega : j + 1 < k + 1)
    · intro hb heq
      have := toInt_injective c hb _ _ (by omega) (by omega) (Itoa_injective _ _ heq)
      omega

/-- Witness of the amended C3 with a 32-bit `int`: the first call carries the id 1,
and the second call, made after one that failed on the write, carries the id 2. -/
theorem uid_counter_witness :
    requestId gearman32 NewClient = 1
      ∧ (doRequest gearman32 NewClient [102] [100] 0).1.Data = [102, 0, 49, 0, 100]
      ∧ (doRequest gearman32
            (Do gearman32 (connected [] [⟨0, some (OsError.transport 1)⟩] 1) [102] [100] 0 1).2
            [102] [100] 0).1.Data = [102, 0, 50, 0, 100] :=
  ⟨(((uid_counter gearman32).2.2.1 0 NewClient AfterCalls.fresh (by decide)).2
      (by decide)).1,
    (((uid_counter gearman32).2.2.1 0 NewClient AfterCalls.fresh (by decide)).2
      (by decide)).2 [102] [100] 0,
    (((uid_counter gearman32).2.2.1 1 _
      (AfterCalls.call 0 (connected [] [⟨0, some (OsError.transport 1)⟩] 1) [102] [100] 0 1
        (AfterCalls.other 0 NewClient _ AfterCalls.fresh rfl)) (by decide)).2
      (by decide)).2 [102] [100] 0⟩

/-! ## The framer: auxiliary facts -/

/-- An index expression at a natural offset reads the visible bytes. -/
theorem Slice.index_natCast (s : Slice) (i : Nat) : s.index (i : Int) = s.vis.get? i := by
  unfold Slice.index Slice.len
  by_cases h : i < s.vis.length
  · simp [h]
  · have h' : s.vis.length ≤ i := Nat.le_of_not_lt h
    simp [h, List.getElem?_eq_none h']

/-- A slice expression within the capacity cuts the backing array. -/
theorem Slice.slice_natCast (s : Slice) (lo hi : Nat) (h1 : lo ≤ hi) (h2 : hi ≤ s.cap) :
    s.slice (lo : Int) (hi : Int)
      = some ⟨(s.backing.drop lo).take (hi - lo), s.backing.drop hi⟩ := by
  unfold Slice.slice
  have : (0 : Int) ≤ lo ∧ (lo : Int) ≤ hi ∧ (hi : Int) ≤ (s.cap : Int) := by omega
  simp [this]

/-- A slice expression whose upper bound exceeds the capacity is out of range. -/
theorem Slice.slice_natCast_none (s : Slice) (lo hi : Nat) (h : s.cap < hi) :
    s.slice (lo : Int) (hi : Int) = none := by
  unfold Slice.slice
  have : ¬ ((0 : Int) ≤ lo ∧ (lo : Int) ≤ hi ∧ (hi : Int) ≤ (s.cap : Int)) := by omega
  rw [if_neg this]

/-- The expression `s[t:]` within the length keeps the capacity beyond it. -/
theorem Slice.sliceFrom_natCast (s : Slice) (t : Nat) (h : t ≤ s.len) :
    s.sliceFrom (t : Int) = some ⟨s.vis.drop t, s.spare⟩ := by
  unfold Slice.sliceFrom
  rw [Slice.slice_natCast s t s.len h (by unfold Slice.len Slice.cap; omega)]
  unfold Slice.backing Slice.len at *
  congr 2
  · rw [List.drop_append_of_le_length h, List.take_append_eq_append_take]
    simp
  · simp

/-- The expression `s[:t]` within the length turns the cut-off bytes into capacity. -/
theorem Slice.sliceTo_natCast (s : Slice) (t : Nat) (h : t ≤ s.len) :
    s.sliceTo (t : Int) = some ⟨s.vis.take t, s.vis.drop t ++ s.spare⟩ := by
  unfold Slice.sliceTo
  have := Slice.slice_natCast s 0 t (Nat.zero_le _) (by unfold Slice.len Slice.cap at *; omega)
  simp only [Nat.cast_zero] at this
  rw [this]
  unfold Slice.backing Slice.len at *
  congr 2
  · simp [List.take_append_of_le_length h]
  · rw [List.drop_append_of_le_length h]

/-- The visible bytes after `append`. -/
theorem Slice.append_vis (c : Consts) (s : Slice) (xs : List Nat) :
    (s.append c xs).vis = s.vis ++ xs := by
  unfold Slice.append
  split <;> rfl

/-- The visible bytes after appending chunks are their concatenation. -/
theorem accumulate_vis (c : Consts) (acc : Slice) (chunks : List (List Nat)) :
    (accumulate c acc chunks).vis = acc.vis ++ chunks.flatten := by
  induction chunks generalizing acc with
  | nil => simp [accumulate]
  | cons ch chunks ih =>
    have := ih (acc.append c ch)
    simp only [accumulate, List.foldl_cons] at this ⊢
    rw [this, Slice.append_vis]
    simp

/-- Full buffers followed by a short one: the loop appends them all and breaks. -/
theorem readLoop_full_then_short (c : Consts) (full : List (List Nat)) (last : List Nat)
    (rest : List ReadEvent) (acc : Slice)
    (hfull : ∀ ch ∈ full, ch.length = c.BUFFER_SIZE) (hlast : last.length < c.BUFFER_SIZE) :
    readLoop c (full.map chunk ++ chunk last :: rest) acc
      = (Res.ret (LoopExit.brk (accumulate c acc (full ++ [last])) none), rest) := by
  induction full generalizing acc with
  | nil =>
    simp [readLoop, chunk, accumulate, hlast, Nat.not_lt.mpr (Nat.le_of_lt hlast)]
  | cons ch full ih =>
    have hch : ch.length = c.BUFFER_SIZE := hfull ch (List.mem_cons_self _ _)
    have ih' := ih (acc.append c ch) (fun x hx => hfull x (List.mem_cons_of_mem _ hx))
    rw [List.map_cons, List.cons_append, readLoop]
    simp only [chunk, hch, lt_irrefl, if_false]
    simp only [chunk] at ih'
    rw [ih']
    simp [accumulate]

/-- Decoding the four big-endian bytes of a 32-bit number gives it back. -/
theorem byteToUint32_uint32ToByte (n : Nat) (h : n < 2 ^ 32) :
    byteToUint32 (n / 2 ^ 24 % 256) (n / 2 ^ 16 % 256) (n / 2 ^ 8 % 256) (n % 256) = n := by
  unfold byteToUint32
  omega

/-- Values below `2 ^ (intBits - 1)` do not wrap. -/
theorem wrapInt_of_small (c : Consts) (u : Nat) (hu : u < 2 ^ (c.intBits - 1)) :
    wrapInt c (u : Int) = (u : Int) := toInt_of_small c u hu

/-- Full buffers are appended and the loop goes on. -/
theorem readLoop_full_prefix (c : Consts) (full : List (List Nat)) (evs : List ReadEvent)
    (acc : Slice) (hfull : ∀ ch ∈ full, ch.length = c.BUFFER_SIZE) :
    readLoop c (full.map chunk ++ evs) acc = readLoop c evs (accumulate c acc full) := by
  induction full generalizing acc with
  | nil => rfl
  | cons ch full ih =>
    have hch : ch.length = c.BUFFER_SIZE := hfull ch (List.mem_cons_self _ _)
    rw [List.map_cons, List.cons_append, readLoop]
    simp only [chunk, hch, lt_irrefl, if_false]
    exact ih (acc.append c ch) (fun x hx => hfull x (List.mem_cons_of_mem _ hx))

/-- A short read without error is appended and ends the loop. -/
theorem readLoop_short (c : Consts) (last : List Nat) (rest : List ReadEvent) (acc : Slice)
    (hlast : last.length < c.BUFFER_SIZE) :
    readLoop c (chunk last :: rest) acc = (Res.ret (LoopExit.brk (acc.append c last) none), rest) := by
  simp [readLoop, chunk, hlast, Nat.not_lt.mpr (Nat.le_of_lt hlast)]

/-- The method `read` on an empty residual buffer and an open connection. -/
theorem read_from_transport (c : Consts) (client : Client) (conn : Conn)
    (hinc : client.incoming = []) (hconn : client.conn = some conn) :
    read c client =
      match readLoop c conn.reads Slice.empty with
      | (Res.ret (LoopExit.brk data err), reads) =>
        readSplit c { client with conn := some { conn with reads := reads } } data err
      | (Res.ret (LoopExit.retn data e), reads) =>
        (Res.ret (data, some e), { client with conn := some { conn with reads := reads } })
      | (Res.panic, reads) => (Res.panic, { client with conn := some { conn with reads := reads } })
      | (Res.blocked, reads) =>
        (Res.blocked, { client with conn := some { conn with reads := reads } })
      | (Res.timeout, reads) =>
        (Res.timeout, { client with conn := some { conn with reads := reads } }) := by
  unfold read
  rw [hinc, hconn]

/-- A response packet is twelve bytes longer than its payload. -/
theorem response_length (ty : Nat) (payload : List Nat) :
    (response ty payload).length = payload.length + 12 := by
  simp [response, RES_STR, uint32ToByte]

/-- A buffer that starts with a response packet starts with the magic. -/
theorem response_take (ty : Nat) (payload more : List Nat) :
    (response ty payload ++ more).take 4 = RES_STR := by
  simp [response, RES_STR, uint32ToByte]

/-- The length field of a buffer that starts with a response packet. -/
theorem response_lengthField (ty : Nat) (payload more : List Nat) (h : payload.length < 2 ^ 32) :
    lengthField (response ty payload ++ more) = payload.length := by
  have := byteToUint32_uint32ToByte payload.length h
  simpa [response, RES_STR, uint32ToByte, lengthField] using this

/-- The split loop passes over `k` windows that lie within the capacity and do not hold the magic. -/
theorem splitLoop_skip (c : Consts) (client : Client) (data : Slice) (err : Option OsError)
    (k : Nat) : ∀ (n start : Nat),
    (∀ j, j < k → start + j + 4 ≤ data.cap
      ∧ (data.backing.drop (start + j)).take 4 ≠ RES_STR) →
    splitLoop c client data err (n + k) start (start + 4)
      = splitLoop c client data err n (start + k) (start + k + 4) := by
  induction k with
  | zero => intro n start _; rfl
  | succ k ih =>
    intro n start h
    have h0 := h 0 (Nat.succ_pos k)
    simp only [Nat.add_zero] at h0
    rw [show n + (k + 1) = (n + k) + 1 by omega, splitLoop,
      Slice.slice_natCast data start (start + 4) (by omega) (by omega)]
    simp only
    rw [show start + 4 - start = 4 by omega, if_neg h0.2]
    have := ih n (start + 1) (fun j hj => by
      have := h (j + 1) (by omega)
      rw [show start + 1 + j = start + (j + 1) by omega]
      exact this)
    rw [show start + 4 + 1 = start + 1 + 4 by omega, this,
      show start + 1 + k = start + (k + 1) by omega]

/-- The split loop stops at a window that lies within the capacity and holds the magic. -/
theorem splitLoop_found (c : Consts) (client : Client) (data : Slice) (err : Option OsError)
    (n start : Nat) (hcap : start + 4 ≤ data.cap)
    (hm : (data.backing.drop start).take 4 = RES_STR) :
    splitLoop c client data err (n + 1) start (start + 4)
      = splitFound c client data err start := by
  rw [splitLoop, Slice.slice_natCast data start (start + 4) (by omega) hcap]
  simp only
  rw [show start + 4 - start = 4 by omega, if_pos hm]

/-- The split loop panics at a window that reaches beyond the capacity. -/
theorem splitLoop_out_of_range (c : Consts) (client : Client) (data : Slice)
    (err : Option OsError) (n start : Nat) (hcap : data.cap < start + 4) :
    splitLoop c client data err (n + 1) start (start + 4) = (Res.panic, client) := by
  rw [splitLoop, Slice.slice_natCast_none data start (start + 4) hcap]

/-- Lines 79-87 for a magic at offset `start` whose header lies within the buffer and
whose declared total does not exceed the buffer length: the total is measured from the
start of the buffer, not from `start`. -/
theorem splitFound_at (c : Consts) (client : Client) (data : Slice) (err : Option OsError)
    (start : Nat) (hhdr : start + 12 ≤ data.len)
    (hlen : lengthField (data.vis.drop start) + 12 ≤ data.len)
    (hint : data.len < 2 ^ (c.intBits - 1)) :
    splitFound c client data err start
      = if lengthField (data.vis.drop start) + 12 = data.len then (Res.ret (data, err), client)
        else if client.incoming.length < c.QUEUE_CAP then
          (Res.ret (⟨data.vis.take (lengthField (data.vis.drop start) + 12),
              data.vis.drop (lengthField (data.vis.drop start) + 12) ++ data.spare⟩, err),
            { client with incoming := client.incoming
                ++ [⟨data.vis.drop (lengthField (data.vis.drop start) + 12), data.spare⟩] })
        else (Res.blocked, client) := by
  have h12 : start + 12 ≤ data.vis.length := hhdr
  have hg : ∀ i, i < 12 → data.vis.get? (start + i) = some ((data.vis.drop start).getD i 0) := by
    intro i hi
    have hi' : start + i < data.vis.length := by omega
    have hi2 : i < (data.vis.drop start).length := by rw [List.length_drop]; omega
    rw [List.getD, List.get?_eq_getElem?, List.get?_eq_getElem?, List.getElem?_eq_getElem hi',
      List.getElem?_eq_getElem hi2, List.getElem_drop]
    rfl
  unfold splitFound
  simp only [Slice.index_natCast, hg 8 (by omega), hg 9 (by omega),
    hg 10 (by omega), hg 11 (by omega)]
  have hLF : lengthField (data.vis.drop start)
      = byteToUint32 ((data.vis.drop start).getD 8 0) ((data.vis.drop start).getD 9 0)
          ((data.vis.drop start).getD 10 0) ((data.vis.drop start).getD 11 0) := rfl
  rw [← hLF]
  have hL : lengthField (data.vis.drop start) < 2 ^ (c.intBits - 1) := by omega
  have hT : lengthField (data.vis.drop start) + 12 < 2 ^ (c.intBits - 1) := by omega
  have hw : wrapInt c (toInt c (lengthField (data.vis.drop start)) + 12)
      = ((lengthField (data.vis.drop start) + 12 : Nat) : Int) := by
    rw [toInt_of_small c _ hL]
    have := wrapInt_of_small c _ hT
    push_cast at this ⊢
    exact this
  rw [hw]
  by_cases heq : lengthField (data.vis.drop start) + 12 = data.len
  · have : ((lengthField (data.vis.drop start) + 12 : Nat) : Int) = (data.len : Int) := by
      exact_mod_cast heq
    rw [if_pos this, if_pos heq]
  · have : ¬ ((lengthField (data.vis.drop start) + 12 : Nat) : Int) = (data.len : Int) := by
      exact_mod_cast heq
    rw [if_neg this, if_neg heq, Slice.sliceFrom_natCast data _ hlen]
    simp only
    by_cases hq : client.incoming.length < c.QUEUE_CAP
    · rw [if_pos hq, if_pos hq, Slice.sliceTo_natCast data _ hlen]
    · rw [if_neg hq, if_neg hq]

/-- A window within the length holds visible bytes only. -/
theorem backing_window (data : Slice) (i : Nat) (h : i + 4 ≤ data.len) :
    (data.backing.drop i).take 4 = (data.vis.drop i).take 4 := by
  unfold Slice.backing
  unfold Slice.len at h
  rw [List.drop_append_of_le_length (by omega), List.take_append_of_le_length]
  rw [List.length_drop]
  omega

/-- Lines 74-95 on a buffer none of whose windows, spare capacity included, holds the
magic: the invalid-framing error when the buffer is empty or has three spare bytes of
capacity, a panic otherwise. -/
theorem readSplit_no_magic (c : Consts) (client : Client) (data : Slice) (err : Option OsError)
    (hno : ∀ i, (data.backing.drop i).take 4 ≠ RES_STR) :
    readSplit c client data err
      = if data.len = 0 ∨ data.len + 3 ≤ data.cap then
          (Res.ret (data, some invalidFraming), client)
        else (Res.panic, client) := by
  unfold readSplit
  by_cases h : data.len = 0 ∨ data.len + 3 ≤ data.cap
  · rw [if_pos h]
    have := splitLoop_skip c client data err data.len 0 0 (fun j hj => ⟨by omega, hno _⟩)
    simp only [Nat.zero_add] at this
    rw [this]
    rfl
  · rw [if_neg h]
    have hk : data.cap - 3 < data.len := by omega
    obtain ⟨n, hn⟩ : ∃ n, data.len = (n + 1) + (data.cap - 3) :=
      ⟨data.len - (data.cap - 3) - 1, by omega⟩
    have := splitLoop_skip c client data err (data.cap - 3) (n + 1) 0
      (fun j hj => ⟨by omega, hno _⟩)
    simp only [Nat.zero_add] at this
    rw [hn, this]
    exact splitLoop_out_of_range c client data err n (data.cap - 3) (by omega)

/-- Lines 74-95 on a buffer that starts with the magic and holds the whole declared
packet: the first `L + 12` bytes are returned with `err` as the read loop left it; the
whole buffer when it is exactly the packet, and otherwise the remaining bytes are sent
to `incoming` as one slice (the send blocks when the channel is full). -/
theorem readSplit_at_zero (c : Consts) (client : Client) (data : Slice) (err : Option OsError)
    (hmagic : data.vis.take 4 = RES_STR) (hlen : lengthField data.vis + 12 ≤ data.len)
    (hint : data.len < 2 ^ (c.intBits - 1)) :
    readSplit c client data err
      = if lengthField data.vis + 12 = data.len then (Res.ret (data, err), client)
        else if client.incoming.length < c.QUEUE_CAP then
          (Res.ret (⟨data.vis.take (lengthField data.vis + 12),
              data.vis.drop (lengthField data.vis + 12) ++ data.spare⟩, err),
            { client with incoming := client.incoming
                ++ [⟨data.vis.drop (lengthField data.vis + 12), data.spare⟩] })
        else (Res.blocked, client) := by
  have h12 : 12 ≤ data.len := by omega
  obtain ⟨n, hn⟩ : ∃ n, data.len = n + 1 := ⟨data.len - 1, by omega⟩
  have hfound := splitLoop_found c client data err n 0 (by unfold Slice.cap Slice.len at *; omega)
    (by rw [backing_window data 0 (by omega)]; simpa using hmagic)
  have hat := splitFound_at c client data err 0 (by omega) (by simpa using hlen) hint
  simp only [List.drop_zero, Nat.zero_add] at hat hfound
  unfold readSplit
  rw [hn, hfound, hat, ← hn]

/-! ## The framer: claims -/

/-- C4, failing input: the transport fills whole read buffers with exactly one
packet (magic at offset 0, declared length plus 12 equal to the number of bytes) and
then reports a zero-byte `os.EOF`.  The buffer meets the conditions of the claim, yet
`read` returns the packet together with `err = os.EOF`, the value the result variable
still holds from the last `Read`: the call does not succeed, and `ReadJob` reports
`os.EOF` without the packet. -/
theorem read_full_buffers_then_EOF (c : Consts) (client : Client) (conn : Conn)
    (full : List (List Nat)) (rest : List ReadEvent)
    (hinc : client.incoming = []) (hconn : client.conn = some conn)
    (hreads : conn.reads = full.map chunk ++ ⟨[], some OsError.EOF⟩ :: rest)
    (hfull : ∀ ch ∈ full, ch.length = c.BUFFER_SIZE)
    (hmagic : full.flatten.take 4 = RES_STR)
    (hlen : lengthField full.flatten + 12 = full.flatten.length)
    (hint : full.flatten.length < 2 ^ (c.intBits - 1)) :
    (accumulate c Slice.empty full).vis = full.flatten
      ∧ read c client
        = (Res.ret (accumulate c Slice.empty full, some OsError.EOF),
            { client with conn := some { conn with reads := rest } })
      ∧ ReadJob c client
        = (Res.ret (none, some OsError.EOF),
            { client with conn := some { conn with reads := rest } }) := by
  have hvis : (accumulate c Slice.empty full).vis = full.flatten := by
    rw [accumulate_vis]; rfl
  suffices hread : read c client
      = (Res.ret (accumulate c Slice.empty full, some OsError.EOF),
          { client with conn := some { conn with reads := rest } }) by
    refine ⟨hvis, hread, ?_⟩
    unfold ReadJob
    rw [hread]
  rw [read_from_transport c client conn hinc hconn, hreads, readLoop_full_prefix c full _ _ hfull]
  have hstep : readLoop c (⟨[], some OsError.EOF⟩ :: rest) (accumulate c Slice.empty full)
      = (Res.ret (LoopExit.brk (accumulate c Slice.empty full) (some OsError.EOF)), rest) := by
    simp [readLoop]
  rw [hstep]
  simp only
  rw [readSplit_at_zero c _ _ _ (by rw [hvis]; exact hmagic)
    (by rw [hvis]; unfold Slice.len; rw [hvis]; omega) (by unfold Slice.len; rw [hvis]; exact hint)]
  rw [if_pos (by rw [hvis]; unfold Slice.len; rw [hvis]; exact hlen)]

set_option maxRecDepth 100000 in
/-- Witness of the C4 failing input: a 1024-byte packet in one full read buffer, then
a zero-byte `os.EOF`. -/
theorem read_full_buffers_then_EOF_witness :
    (accumulate gearman32 Slice.empty [response 8 (List.replicate 1012 7)]).vis
        = response 8 (List.replicate 1012 7)
      ∧ read gearman32
          (connected [chunk (response 8 (List.replicate 1012 7)), ⟨[], some OsError.EOF⟩] [] 1)
        = (Res.ret (accumulate gearman32 Slice.empty [response 8 (List.replicate 1012 7)],
            some OsError.EOF), connected [] [] 1)
      ∧ ReadJob gearman32
          (connected [chunk (response 8 (List.replicate 1012 7)), ⟨[], some OsError.EOF⟩] [] 1)
        = (Res.ret (none, some OsError.EOF), connected [] [] 1) :=
  read_full_buffers_then_EOF gearman32
    (connected [chunk (response 8 (List.replicate 1012 7)), ⟨[], some OsError.EOF⟩] [] 1)
    ⟨[chunk (response 8 (List.replicate 1012 7)), ⟨[], some OsError.EOF⟩], [], []⟩
    [response 8 (List.replicate 1012 7)] [] rfl rfl rfl
    (by intro ch hch; simp only [List.mem_singleton] at hch; subst hch; decide)
    (by decide) (by decide) (by decide)

/-- C5: two valid response packets arrive concatenated in one transport read shorter
than `BUFFER_SIZE`, the residual buffer being empty.  The first `read` returns exactly
the first packet, without error, and leaves the second as the only residual entry; the
second `read` returns exactly the second packet, without error, consumes no `Read`
result (the connection is unchanged) and leaves the residual buffer empty. -/
theorem read_two_batched (c : Consts) (client : Client) (conn : Conn) (ty1 ty2 : Nat)
    (pl1 pl2 : List Nat) (rest : List ReadEvent)
    (hinc : client.incoming = []) (hconn : client.conn = some conn)
    (hreads : conn.reads = chunk (response ty1 pl1 ++ response ty2 pl2) :: rest)
    (hshort : (response ty1 pl1 ++ response ty2 pl2).length < c.BUFFER_SIZE)
    (hint : (response ty1 pl1 ++ response ty2 pl2).length < 2 ^ (c.intBits - 1))
    (hq : 0 < c.QUEUE_CAP) (h1 : pl1.length < 2 ^ 32) (h2 : pl2.length < 2 ^ 32) :
    read c client
        = (Res.ret (⟨response ty1 pl1, response ty2 pl2
              ++ (Slice.empty.append c (response ty1 pl1 ++ response ty2 pl2)).spare⟩, none),
            { client with
                conn := some { conn with reads := rest },
                incoming := [⟨response ty2 pl2,
                  (Slice.empty.append c (response ty1 pl1 ++ response ty2 pl2)).spare⟩] })
      ∧ read c { client with
                conn := some { conn with reads := rest },
                incoming := [⟨response ty2 pl2,
                  (Slice.empty.append c (response ty1 pl1 ++ response ty2 pl2)).spare⟩] }
        = (Res.ret (⟨response ty2 pl2,
              (Slice.empty.append c (response ty1 pl1 ++ response ty2 pl2)).spare⟩, none),
            { client with conn := some { conn with reads := rest }, incoming := [] }) := by
  have hl1 := response_length ty1 pl1
  have hl2 := response_length ty2 pl2
  rw [List.length_append, hl1, hl2] at hshort hint
  -- first call
  have hvis : (Slice.empty.append c (response ty1 pl1 ++ response ty2 pl2)).vis
      = response ty1 pl1 ++ response ty2 pl2 := by
    rw [Slice.append_vis]; rfl
  generalize hd : Slice.empty.append c (response ty1 pl1 ++ response ty2 pl2) = d at hvis
  have hdlen : d.len = pl1.length + 12 + (pl2.length + 12) := by
    unfold Slice.len; rw [hvis, List.length_append, hl1, hl2]
  have hLF : lengthField d.vis = pl1.length := by
    rw [hvis]; exact response_lengthField ty1 pl1 _ h1
  have hfirst : read c client
      = (Res.ret (⟨response ty1 pl1, response ty2 pl2 ++ d.spare⟩, none),
          { client with conn := some { conn with reads := rest },
                        incoming := [⟨response ty2 pl2, d.spare⟩] }) := by
    rw [read_from_transport c client conn hinc hconn, hreads, readLoop_short c _ _ _
      (by rw [List.length_append, hl1, hl2]; exact hshort), hd]
    simp only
    rw [readSplit_at_zero c _ d none (by rw [hvis]; exact response_take ty1 pl1 _)
      (by rw [hLF, hdlen]; omega) (by rw [hdlen]; exact hint)]
    rw [if_neg (by rw [hLF, hdlen]; omega)]
    simp only [hinc, List.length_nil, hq, if_true, List.nil_append, hLF]
    rw [hvis, ← hl1, List.take_left, List.drop_left]
  refine ⟨hfirst, ?_⟩
  -- second call
  have hLF2 : lengthField (response ty2 pl2) = pl2.length := by
    have := response_lengthField ty2 pl2 [] h2
    simpa using this
  unfold read
  simp only
  rw [readSplit_at_zero c _ _ none (by simpa using response_take ty2 pl2 [])
    (by unfold Slice.len; simp only; rw [hLF2, hl2])
    (by unfold Slice.len; simp only; rw [hl2]; omega)]
  rw [if_pos (by unfold Slice.len; simp only; rw [hLF2, hl2])]

/-- Witness of C5: a `JOB_CREATED` packet with handle `H:1` and a `WORK_COMPLETE` packet
with payload `cba` in one read. -/
theorem read_two_batched_witness :
    read gearman32 (connected [chunk (response 8 [72, 58, 49] ++ response 13 [99, 98, 97])] [] 1)
        = (Res.ret (⟨response 8 [72, 58, 49], response 13 [99, 98, 97]⟩, none),
            { connected [] [] 1 with incoming := [⟨response 13 [99, 98, 97], []⟩] })
      ∧ read gearman32 { connected [] [] 1 with incoming := [⟨response 13 [99, 98, 97], []⟩] }
        = (Res.ret (⟨response 13 [99, 98, 97], []⟩, none), connected [] [] 1) :=
  read_two_batched gearman32
    (connected [chunk (response 8 [72, 58, 49] ++ response 13 [99, 98, 97])] [] 1)
    ⟨[chunk (response 8 [72, 58, 49] ++ response 13 [99, 98, 97])], [], []⟩
    8 13 [72, 58, 49] [99, 98, 97] [] rfl rfl rfl (by decide) (by decide) (by decide)
    (by decide) (by decide)

/-- C6, counterexample: the 15-byte packet `JOB_CREATED` with payload `H:1` arrives as
its 12-byte header and then its 3-byte payload.  The first `Read` is short, so the loop
stops after the header; the declared total 15 exceeds the 12 bytes held and
`data[total:]` is out of range: `read` panics with the payload still unread. -/
theorem read_split_header_payload_panics :
    [0, 82, 69, 83, 0, 0, 0, 8, 0, 0, 0, 3] ++ [72, 58, 49] = response 8 [72, 58, 49]
      ∧ read gearman32
          (connected [chunk [0, 82, 69, 83, 0, 0, 0, 8, 0, 0, 0, 3], chunk [72, 58, 49]] [] 1)
        = (Res.panic, connected [chunk [72, 58, 49]] [] 1) := by
  decide

/-- C6, amended: when a valid response packet arrives in chunks of which every one
but the last fills the read buffer exactly and the last is shorter than `BUFFER_SIZE`,
`read` on an empty residual buffer returns exactly that packet, without error, consumes
exactly those chunks and pushes nothing to the residual buffer. -/
theorem read_reassembles_full_buffers (c : Consts) (client : Client) (conn : Conn)
    (ty : Nat) (payload : List Nat) (full : List (List Nat)) (last : List Nat)
    (rest : List ReadEvent)
    (hinc : client.incoming = []) (hconn : client.conn = some conn)
    (hreads : conn.reads = full.map chunk ++ chunk last :: rest)
    (hfull : ∀ ch ∈ full, ch.length = c.BUFFER_SIZE) (hlast : last.length < c.BUFFER_SIZE)
    (hp : (full ++ [last]).flatten = response ty payload)
    (hpl : payload.length < 2 ^ 32)
    (hint : (response ty payload).length < 2 ^ (c.intBits - 1)) :
    (accumulate c Slice.empty (full ++ [last])).vis = response ty payload
      ∧ read c client
        = (Res.ret (accumulate c Slice.empty (full ++ [last]), none),
            { client with conn := some { conn with reads := rest } }) := by
  have hvis : (accumulate c Slice.empty (full ++ [last])).vis = response ty payload := by
    rw [accumulate_vis, hp]; rfl
  refine ⟨hvis, ?_⟩
  have hl := response_length ty payload
  have hLF : lengthField (response ty payload) = payload.length := by
    simpa using response_lengthField ty payload [] hpl
  rw [read_from_transport c client conn hinc hconn, hreads,
    readLoop_full_then_short c full last rest _ hfull hlast]
  simp only
  rw [readSplit_at_zero c _ _ none (by rw [hvis]; simpa using response_take ty payload [])
    (by unfold Slice.len; rw [hvis, hLF, hl]) (by unfold Slice.len; rw [hvis]; exact hint)]
  rw [if_pos (by unfold Slice.len; rw [hvis, hLF, hl])]

/-- Witness of the amended C6 with an 8-byte read buffer: the 15-byte packet arrives
as 8 and 7 bytes. -/
theorem read_reassembles_full_buffers_witness :
    [[0, 82, 69, 83, 0, 0, 0, 8], [0, 0, 0, 3, 72, 58, 49]].flatten = response 8 [72, 58, 49]
      ∧ (accumulate { gearman32 with BUFFER_SIZE := 8 } Slice.empty
            ([[0, 82, 69, 83, 0, 0, 0, 8]] ++ [[0, 0, 0, 3, 72, 58, 49]])).vis
          = response 8 [72, 58, 49]
      ∧ read { gearman32 with BUFFER_SIZE := 8 }
          (connected [chunk [0, 82, 69, 83, 0, 0, 0, 8], chunk [0, 0, 0, 3, 72, 58, 49]] [] 1)
        = (Res.ret (accumulate { gearman32 with BUFFER_SIZE := 8 } Slice.empty
            ([[0, 82, 69, 83, 0, 0, 0, 8]] ++ [[0, 0, 0, 3, 72, 58, 49]]), none),
            connected [] [] 1) :=
  ⟨by decide, read_reassembles_full_buffers { gearman32 with BUFFER_SIZE := 8 }
    (connected [chunk [0, 82, 69, 83, 0, 0, 0, 8], chunk [0, 0, 0, 3, 72, 58, 49]] [] 1)
    ⟨[chunk [0, 82, 69, 83, 0, 0, 0, 8], chunk [0, 0, 0, 3, 72, 58, 49]], [], []⟩
    8 [72, 58, 49] [[0, 82, 69, 83, 0, 0, 0, 8]] [0, 0, 0, 3, 72, 58, 49] [] rfl rfl rfl
    (by decide) (by decide) (by decide) (by decide) (by decide)⟩

/-- C7, failing inputs: on every buffer made of non-empty garbage `g` followed by a
valid response packet `p`, the magic first occurring at offset `len(g)`, lines 74-95
find the magic at `len(g)` but cut at `len(p)` counted from offset 0: the bytes returned
are the first `len(p)` bytes of `g ++ p`, which are not `p`, and the rest, a non-empty
tail of `p`, is sent to the residual buffer. -/
theorem readSplit_leading_garbage (c : Consts) (client : Client) (data : Slice)
    (err : Option OsError) (g : List Nat) (ty : Nat) (payload : List Nat)
    (hvis : data.vis = g ++ response ty payload) (hg : g ≠ [])
    (hfirst : ∀ i, i < g.length → (data.vis.drop i).take 4 ≠ RES_STR)
    (hpl : payload.length < 2 ^ 32) (hint : data.len < 2 ^ (c.intBits - 1))
    (hq : client.incoming.length < c.QUEUE_CAP) :
    readSplit c client data err
        = (Res.ret (⟨data.vis.take (payload.length + 12),
              data.vis.drop (payload.length + 12) ++ data.spare⟩, err),
            { client with incoming := client.incoming
                ++ [⟨data.vis.drop (payload.length + 12), data.spare⟩] })
      ∧ data.vis.take (payload.length + 12) ≠ response ty payload
      ∧ data.vis.drop (payload.length + 12) ≠ [] := by
  have hgl : 0 < g.length := List.length_pos.mpr hg
  have hl := response_length ty payload
  have hlen : data.len = g.length + (payload.length + 12) := by
    unfold Slice.len; rw [hvis, List.length_append, hl]
  have hdrop : data.vis.drop g.length = response ty payload := by
    rw [hvis, List.drop_left]
  have hLF : lengthField (data.vis.drop g.length) = payload.length := by
    rw [hdrop]; simpa using response_lengthField ty payload [] hpl
  refine ⟨?_, ?_, ?_⟩
  · unfold readSplit
    have hskip := splitLoop_skip c client data err g.length (payload.length + 11 + 1) 0
      (fun j hj => ⟨by unfold Slice.cap; unfold Slice.len at hlen; omega, by
        rw [Nat.zero_add, backing_window data j (by omega)]
        exact hfirst j hj⟩)
    simp only [Nat.zero_add] at hskip
    rw [show data.len = payload.length + 11 + 1 + g.length by omega, hskip,
      splitLoop_found c client data err _ g.length
        (by unfold Slice.cap; unfold Slice.len at hlen; omega)
        (by rw [backing_window data _ (by omega), hdrop]; simpa using response_take ty payload []),
      splitFound_at c client data err g.length (by omega) (by rw [hLF]; omega) hint, hLF,
      if_neg (by omega), if_pos hq]
  · intro h
    have h0 := hfirst 0 hgl
    apply h0
    have : (data.vis.take (payload.length + 12)).take 4 = RES_STR := by
      rw [h]; simpa using response_take ty payload []
    rw [List.take_take] at this
    simpa [Nat.min_eq_left (show 4 ≤ payload.length + 12 by omega)] using this
  · intro h
    have := congrArg List.length h
    rw [List.length_drop] at this
    unfold Slice.len at hlen
    simp at this
    omega

/-- Witness of the C7 failing input: one garbage byte `A` followed by the 12-byte
packet `JOB_CREATED` with empty payload, as an accumulated slice and as read from the
transport in one `Read`. -/
theorem readSplit_leading_garbage_witness :
    (readSplit gearman32 (connected [] [] 1) ⟨[65] ++ response 8 [], []⟩ none
        = (Res.ret (⟨[65, 0, 82, 69, 83, 0, 0, 0, 8, 0, 0, 0], [0]⟩, none),
            { connected [] [] 1 with incoming := [⟨[0], []⟩] })
      ∧ [65, 0, 82, 69, 83, 0, 0, 0, 8, 0, 0, 0] ≠ response 8 []
      ∧ [0] ≠ ([] : List Nat))
    ∧ read gearman32 (connected [chunk ([65] ++ response 8 [])] [] 1)
      = (Res.ret (⟨[65, 0, 82, 69, 83, 0, 0, 0, 8, 0, 0, 0], [0]⟩, none),
          { connected [] [] 1 with incoming := [⟨[0], []⟩] }) :=
  ⟨readSplit_leading_garbage gearman32 (connected [] [] 1) ⟨[65] ++ response 8 [], []⟩ none
      [65] 8 [] rfl (by decide) (by intro i hi; simp only [List.length_singleton, Nat.lt_one_iff] at hi; subst hi; decide) (by decide)
      (by decide) (by decide),
    by decide⟩

/-- C8, failing inputs: every non-empty buffer in which the magic occurs at no offset
and whose capacity equals its length (as `append` to the nil slice allocates for 8
bytes) makes lines 74-95 panic, the window `data[i:i+4]` running past the capacity,
instead of returning the invalid-framing error. -/
theorem readSplit_no_magic_tight (c : Consts) (client : Client) (bytes : List Nat)
    (err : Option OsError) (hne : bytes ≠ [])
    (hno : ∀ i, (bytes.drop i).take 4 ≠ RES_STR) :
    readSplit c client ⟨bytes, []⟩ err = (Res.panic, client) := by
  rw [readSplit_no_magic c client ⟨bytes, []⟩ err (by simpa [Slice.backing] using hno)]
  have : 0 < bytes.length := List.length_pos.mpr hne
  rw [if_neg]
  simp only [Slice.len, Slice.cap, List.length_nil]
  omega

/-- Witness of the C8 failing input: eight bytes `A`, as an accumulated slice and as
read from the transport in one `Read`; the same bytes with three spare zero bytes of
capacity do give the invalid-framing error. -/
theorem readSplit_no_magic_tight_witness :
    readSplit gearman32 (connected [] [] 1) ⟨[65, 65, 65, 65, 65, 65, 65, 65], []⟩ none
        = (Res.panic, connected [] [] 1)
      ∧ read gearman32 (connected [chunk [65, 65, 65, 65, 65, 65, 65, 65]] [] 1)
        = (Res.panic, connected [] [] 1)
      ∧ readSplit gearman32 (connected [] [] 1) ⟨[65, 65, 65, 65, 65, 65, 65, 65], [0, 0, 0]⟩ none
        = (Res.ret (⟨[65, 65, 65, 65, 65, 65, 65, 65], [0, 0, 0]⟩, some invalidFraming),
            connected [] [] 1) :=
  ⟨readSplit_no_magic_tight gearman32 (connected [] [] 1) [65, 65, 65, 65, 65, 65, 65, 65] none
      (by decide) (by
        intro i
        rcases Nat.lt_or_ge i 8 with h | h
        · interval_cases i <;> decide
        · rw [List.drop_of_length_le (by simpa using h)]; decide),
    by decide, by decide⟩

/-- C9: with the residual buffer empty, a first transport read that reports `os.EOF`
with zero bytes makes `read` return the invalid-framing error with an empty buffer, not
`os.EOF`; any transport read error that is not a zero-byte `os.EOF` (an `os.EOF` with
bytes included), on the first read or after full buffers, is returned as it is. -/
theorem read_EOF_and_errors (c : Consts) (client : Client) (conn : Conn)
    (hinc : client.incoming = []) (hconn : client.conn = some conn) :
    (∀ rest : List ReadEvent, conn.reads = ⟨[], some OsError.EOF⟩ :: rest →
        read c client
          = (Res.ret (Slice.empty, some invalidFraming),
              { client with conn := some { conn with reads := rest } }))
      ∧ (∀ (full : List (List Nat)) (bytes : List Nat) (e : OsError) (rest : List ReadEvent),
          conn.reads = full.map chunk ++ ⟨bytes, some e⟩ :: rest →
          (∀ ch ∈ full, ch.length = c.BUFFER_SIZE) →
          ¬ (e = OsError.EOF ∧ bytes.length = 0) →
          read c client
            = (Res.ret (accumulate c Slice.empty full, some e),
                { client with conn := some { conn with reads := rest } })) := by
  constructor
  · intro rest hreads
    rw [read_from_transport c client conn hinc hconn, hreads]
    rfl
  · intro full bytes e rest hreads hfull hne
    rw [read_from_transport c client conn hinc hconn, hreads,
      readLoop_full_prefix c full _ _ hfull]
    have hstep : readLoop c (⟨bytes, some e⟩ :: rest) (accumulate c Slice.empty full)
        = (Res.ret (LoopExit.retn (accumulate c Slice.empty full) e), rest) := by
      rw [readLoop]
      simp only
      rw [if_neg hne]
    rw [hstep]

/-- Witness of C9: a zero-byte `os.EOF`, an `os.EOF` with two bytes, and another
transport error, each on the first read. -/
theorem read_EOF_and_errors_witness :
    read gearman32 (connected [⟨[], some OsError.EOF⟩] [] 1)
        = (Res.ret (Slice.empty, some (OsError.NewError "Invalid data struct.")),
            connected [] [] 1)
      ∧ read gearman32 (connected [⟨[0, 82], some OsError.EOF⟩] [] 1)
        = (Res.ret (Slice.empty, some OsError.EOF), connected [] [] 1)
      ∧ read gearman32 (connected [⟨[], some (OsError.transport 104)⟩] [] 1)
        = (Res.ret (Slice.empty, some (OsError.transport 104)), connected [] [] 1) :=
  ⟨(read_EOF_and_errors gearman32 (connected [⟨[], some OsError.EOF⟩] [] 1)
      ⟨[⟨[], some OsError.EOF⟩], [], []⟩ rfl rfl).1 [] rfl,
    (read_EOF_and_errors gearman32 (connected [⟨[0, 82], some OsError.EOF⟩] [] 1)
      ⟨[⟨[0, 82], some OsError.EOF⟩], [], []⟩ rfl rfl).2 [] [0, 82] OsError.EOF [] rfl
      (by decide) (by decide),
    (read_EOF_and_errors gearman32 (connected [⟨[], some (OsError.transport 104)⟩] [] 1)
      ⟨[⟨[], some (OsError.transport 104)⟩], [], []⟩ rfl rfl).2 [] [] (OsError.transport 104) []
      rfl (by decide) (by decide)⟩

/-- C10: with the residual buffer empty, when the transport returns the chunks
`chunks` without error, every chunk before index `k` has exactly `BUFFER_SIZE` bytes
and chunk `k` is shorter, the read loop ends after chunk `k`, leaves the later chunks
unread, and the bytes `read` then scans are exactly the concatenation of the chunks up
to and including chunk `k`. -/
theorem read_accumulates_until_short (c : Consts) (client : Client) (conn : Conn)
    (chunks : List (List Nat)) (k : Nat) (rest : List ReadEvent)
    (hinc : client.incoming = []) (hconn : client.conn = some conn)
    (hreads : conn.reads = chunks.map chunk ++ rest)
    (hk : k < chunks.length)
    (hfull : ∀ i, i < k → (chunks.getD i []).length = c.BUFFER_SIZE)
    (hshort : (chunks.getD k []).length < c.BUFFER_SIZE) :
    (accumulate c Slice.empty (chunks.take (k + 1))).vis = (chunks.take (k + 1)).flatten
      ∧ readLoop c conn.reads Slice.empty
        = (Res.ret (LoopExit.brk (accumulate c Slice.empty (chunks.take (k + 1))) none),
            (chunks.drop (k + 1)).map chunk ++ rest)
      ∧ read c client
        = readSplit c
            { client with conn := some { conn with reads := (chunks.drop (k + 1)).map chunk ++ rest } }
            (accumulate c Slice.empty (chunks.take (k + 1))) none := by
  have hvis : (accumulate c Slice.empty (chunks.take (k + 1))).vis
      = (chunks.take (k + 1)).flatten := by
    rw [accumulate_vis]; rfl
  have hgetD : chunks.getD k [] = chunks[k] := by
    rw [List.getD, List.get?_eq_getElem?, List.getElem?_eq_getElem hk]; rfl
  have htake : chunks.take (k + 1) = chunks.take k ++ [chunks.getD k []] := by
    rw [hgetD, List.take_succ, List.getElem?_eq_getElem hk]; rfl
  have hsplit : chunks = chunks.take k ++ chunks.getD k [] :: chunks.drop (k + 1) := by
    rw [hgetD]
    conv_lhs => rw [← List.take_append_drop k chunks]
    rw [List.drop_eq_getElem_cons hk]
  have hfull' : ∀ ch ∈ chunks.take k, ch.length = c.BUFFER_SIZE := by
    intro ch hch
    obtain ⟨i, hi, rfl⟩ := List.getElem_of_mem hch
    rw [List.length_take] at hi
    have hik : i < k := by omega
    have hil : i < chunks.length := by omega
    have := hfull i hik
    rw [List.getD, List.get?_eq_getElem?, List.getElem?_eq_getElem hil] at this
    rw [List.getElem_take]
    exact this
  have hloop : readLoop c conn.reads Slice.empty
      = (Res.ret (LoopExit.brk (accumulate c Slice.empty (chunks.take (k + 1))) none),
          (chunks.drop (k + 1)).map chunk ++ rest) := by
    rw [hreads]
    conv_lhs => rw [hsplit]
    rw [List.map_append, List.map_cons, List.append_assoc, List.cons_append,
      readLoop_full_then_short c _ _ _ _ hfull' hshort, htake]
  refine ⟨hvis, hloop, ?_⟩
  rw [read_from_transport c client conn hinc hconn, hloop]

/-- Witness of C10 with a 4-byte read buffer: two full chunks, a short one, and a
chunk that stays unread. -/
theorem read_accumulates_until_short_witness :
    readLoop { gearman32 with BUFFER_SIZE := 4 }
        [chunk [0, 82, 69, 83], chunk [0, 0, 0, 8], chunk [0, 0], chunk [0, 0]] Slice.empty
      = (Res.ret (LoopExit.brk (accumulate { gearman32 with BUFFER_SIZE := 4 } Slice.empty
            [[0, 82, 69, 83], [0, 0, 0, 8], [0, 0]]) none), [chunk [0, 0]])
      ∧ (accumulate { gearman32 with BUFFER_SIZE := 4 } Slice.empty
            [[0, 82, 69, 83], [0, 0, 0, 8], [0, 0]]).vis
          = [0, 82, 69, 83, 0, 0, 0, 8, 0, 0] :=
  ⟨(read_accumulates_until_short { gearman32 with BUFFER_SIZE := 4 }
      (connected [chunk [0, 82, 69, 83], chunk [0, 0, 0, 8], chunk [0, 0], chunk [0, 0]] [] 1)
      ⟨[chunk [0, 82, 69, 83], chunk [0, 0, 0, 8], chunk [0, 0], chunk [0, 0]], [], []⟩
      [[0, 82, 69, 83], [0, 0, 0, 8], [0, 0], [0, 0]] 2 [] rfl rfl rfl (by decide)
      (by intro i hi; interval_cases i <;> decide) (by decide)).2.1,
    (read_accumulates_until_short { gearman32 with BUFFER_SIZE := 4 }
      (connected [chunk [0, 82, 69, 83], chunk [0, 0, 0, 8], chunk [0, 0], chunk [0, 0]] [] 1)
      ⟨[chunk [0, 82, 69, 83], chunk [0, 0, 0, 8], chunk [0, 0], chunk [0, 0]], [], []⟩
      [[0, 82, 69, 83], [0, 0, 0, 8], [0, 0], [0, 0]] 2 [] rfl rfl rfl (by decide)
      (by intro i hi; interval_cases i <;> decide) (by decide)).1⟩

/-! ## Dispatch: auxiliary facts -/

/-- Splitting a packet at a found magic leaves `JobQueue` alone. -/
theorem splitFound_JobQueue (c : Consts) (client : Client) (data : Slice)
    (err : Option OsError) (start : Nat) :
    (splitFound c client data err start).2.JobQueue = client.JobQueue := by
  unfold splitFound
  split
  · dsimp only
    split
    · rfl
    · split
      · rfl
      · split
        · split <;> rfl
        · rfl
  · rfl

/-- The split loop leaves `JobQueue` alone. -/
theorem splitLoop_JobQueue (c : Consts) (client : Client) (data : Slice)
    (err : Option OsError) (n start stop : Nat) :
    (splitLoop c client data err n start stop).2.JobQueue = client.JobQueue := by
  induction n generalizing start stop with
  | zero => rfl
  | succ n ih =>
    unfold splitLoop
    split
    · rfl
    · split
      · exact splitFound_JobQueue c client data err start
      · exact ih _ _

/-- The method `read` leaves `JobQueue` alone, however it ends. -/
theorem read_JobQueue (c : Consts) (client : Client) :
    (read c client).2.JobQueue = client.JobQueue := by
  unfold read
  split
  · exact splitLoop_JobQueue _ _ _ _ _ _ _
  · split
    · rfl
    · split
      · exact splitLoop_JobQueue _ _ _ _ _ _ _
      all_goals rfl

/-! ## Dispatch: claims -/

/-- C11, amended: the six work-update types being different from `ERROR`, a packet that
`ReadJob` frames and decodes is appended to the end of `JobQueue`, after the entries
already there, and returned without error when its type is one of `WORK_DATA`,
`WORK_WARNING`, `WORK_STATUS`, `WORK_COMPLETE`, `WORK_FAIL`, `WORK_EXCEPTION` and
`JobQueue` holds fewer than `QUEUE_CAP` entries (with `QUEUE_CAP` entries queued the
send waits: the job is neither appended nor returned); for every other type, `ERROR`
included, the job is returned and `JobQueue` is unchanged; and whenever framing or
decoding fails `JobQueue` is unchanged. -/
theorem ReadJob_queues_work_updates (c : Consts) (client : Client)
    (hE : c.ERROR ∉ workTypes c) :
    (∀ (rel : Slice) (cl : Client) (job : ClientJob),
        read c client = (Res.ret (rel, none), cl) → DecodeClientJob rel.vis = Except.ok job →
        (job.DataType ∈ workTypes c →
          (client.JobQueue.length < c.QUEUE_CAP →
            ReadJob c client
              = (Res.ret (some job, none), { cl with JobQueue := client.JobQueue ++ [job] }))
          ∧ (c.QUEUE_CAP ≤ client.JobQueue.length →
            ReadJob c client = (Res.blocked, cl) ∧ cl.JobQueue = client.JobQueue))
        ∧ (job.DataType ∉ workTypes c →
          (∃ err, ReadJob c client = (Res.ret (some job, err), cl)
            ∧ (err = none ↔ job.DataType ≠ c.ERROR))
          ∧ (ReadJob c client).2.JobQueue = client.JobQueue))
      ∧ (∀ (rel : Slice) (cl : Client) (e : OsError),
          read c client = (Res.ret (rel, none), cl) → DecodeClientJob rel.vis = Except.error e →
          ReadJob c client = (Res.ret (none, some e), cl) ∧ cl.JobQueue = client.JobQueue)
      ∧ ((∀ (rel : Slice), (read c client).1 ≠ Res.ret (rel, none)) →
          (ReadJob c client).2 = (read c client).2
          ∧ (ReadJob c client).2.JobQueue = client.JobQueue
          ∧ ∀ job, (ReadJob c client).1 ≠ Res.ret (some job, none)) := by
  have hq := read_JobQueue c client
  refine ⟨?_, ?_, ?_⟩
  · intro rel cl job hread hdec
    rw [hread] at hq
    simp only at hq
    refine ⟨?_, ?_⟩
    · intro hw
      have hne : job.DataType ≠ c.ERROR := fun h => hE (h ▸ hw)
      have hw' : job.DataType ∈ [c.WORK_DATA, c.WORK_WARNING, c.WORK_STATUS, c.WORK_COMPLETE,
          c.WORK_FAIL, c.WORK_EXCEPTION] := hw
      refine ⟨?_, ?_⟩
      · intro hroom
        unfold ReadJob
        rw [hread]
        simp only [hdec]
        rw [if_neg hne, if_pos hw', if_pos (by rw [hq]; exact hroom), hq]
      · intro hfull
        unfold ReadJob
        rw [hread]
        simp only [hdec]
        rw [if_neg hne, if_pos hw', if_neg (by rw [hq]; omega)]
        exact ⟨rfl, hq⟩
    · intro hw
      have hw' : job.DataType ∉ [c.WORK_DATA, c.WORK_WARNING, c.WORK_STATUS, c.WORK_COMPLETE,
          c.WORK_FAIL, c.WORK_EXCEPTION] := hw
      by_cases hne : job.DataType = c.ERROR
      · have hrj : ReadJob c client = (Res.ret (some job, some (getError job.Data)), cl) := by
          unfold ReadJob
          rw [hread]
          simp only [hdec]
          rw [if_pos hne]
        refine ⟨⟨_, hrj, by simp [hne]⟩, by rw [hrj]; exact hq⟩
      · have hrj : ReadJob c client = (Res.ret (some job, none), cl) := by
          unfold ReadJob
          rw [hread]
          simp only [hdec]
          rw [if_neg hne, if_neg hw']
        refine ⟨⟨_, hrj, by simp [hne]⟩, by rw [hrj]; exact hq⟩
  · intro rel cl e hread hdec
    rw [hread] at hq
    refine ⟨?_, hq⟩
    unfold ReadJob
    rw [hread]
    simp only [hdec]
  · intro hfail
    have hstate : (ReadJob c client).2 = (read c client).2
        ∧ ∀ job, (ReadJob c client).1 ≠ Res.ret (some job, none) := by
      unfold ReadJob
      generalize read c client = r at hfail
      obtain ⟨o, cl⟩ := r
      cases o with
      | ret a =>
        obtain ⟨rel, err⟩ := a
        cases err with
        | none => exact absurd rfl (hfail rel)
        | some e => exact ⟨rfl, fun job h => by simp at h⟩
      | panic => exact ⟨rfl, fun job h => by simp at h⟩
      | blocked => exact ⟨rfl, fun job h => by simp at h⟩
      | timeout => exact ⟨rfl, fun job h => by simp at h⟩
    exact ⟨hstate.1, by rw [hstate.1]; exact hq, hstate.2⟩

/-- Witness of the amended C11: a `WORK_DATA` packet and a `JOB_CREATED` packet arrive in one read
while one job is queued; the first call appends the `WORK_DATA` job behind it, the
second returns the `JOB_CREATED` job and leaves the queue as it is. -/
theorem ReadJob_queues_work_updates_witness :
    gearman32.ERROR ∉ workTypes gearman32
      ∧ ReadJob gearman32
          { connected [chunk (response 28 [120] ++ response 8 [72])] [] 1 with
            JobQueue := [⟨RES, 12, []⟩] }
        = (Res.ret (some ⟨RES, 28, [120]⟩, none),
            { connected [] [] 1 with
              JobQueue := [⟨RES, 12, []⟩, ⟨RES, 28, [120]⟩],
              incoming := [⟨response 8 [72], []⟩] })
      ∧ ReadJob gearman32
          { connected [] [] 1 with
            JobQueue := [⟨RES, 12, []⟩, ⟨RES, 28, [120]⟩],
            incoming := [⟨response 8 [72], []⟩] }
        = (Res.ret (some ⟨RES, 8, [72]⟩, none),
            { connected [] [] 1 with JobQueue := [⟨RES, 12, []⟩, ⟨RES, 28, [120]⟩] }) :=
  ⟨by decide,
    ((ReadJob_queues_work_updates gearman32
        { connected [chunk (response 28 [120] ++ response 8 [72])] [] 1 with
          JobQueue := [⟨RES, 12, []⟩] } (by decide)).1
      ⟨response 28 [120], response 8 [72]⟩
      { connected [] [] 1 with
        JobQueue := [⟨RES, 12, []⟩], incoming := [⟨response 8 [72], []⟩] }
      ⟨RES, 28, [120]⟩ (by decide) rfl).1 (by decide) |>.1 (by decide),
    by decide⟩

set_option maxRecDepth 100000 in
/-- C11, counterexample: with `QUEUE_CAP` (512) jobs queued, a `WORK_DATA` packet that
`read` frames and `DecodeClientJob` decodes is neither appended to `JobQueue` nor
returned: the send of line 112 waits, the queue as it was. -/
theorem ReadJob_blocks_on_full_queue :
    (read gearman32
        { connected [chunk (response 28 [120])] [] 1 with
          JobQueue := List.replicate 512 ⟨RES, 12, []⟩ }).1
        = Res.ret (⟨response 28 [120], []⟩, none)
      ∧ DecodeClientJob (response 28 [120]) = Except.ok ⟨RES, 28, [120]⟩
      ∧ 28 ∈ workTypes gearman32
      ∧ ReadJob gearman32
          { connected [chunk (response 28 [120])] [] 1 with
            JobQueue := List.replicate 512 ⟨RES, 12, []⟩ }
        = (Res.blocked,
            { connected [] [] 1 with JobQueue := List.replicate 512 ⟨RES, 12, []⟩ })
      ∧ ∀ job, (ReadJob gearman32
          { connected [chunk (response 28 [120])] [] 1 with
            JobQueue := List.replicate 512 ⟨RES, 12, []⟩ }).1 ≠ Res.ret (some job, none) := by
  have h : ReadJob gearman32
          { connected [chunk (response 28 [120])] [] 1 with
            JobQueue := List.replicate 512 ⟨RES, 12, []⟩ }
        = (Res.blocked,
            { connected [] [] 1 with JobQueue := List.replicate 512 ⟨RES, 12, []⟩ }) := by
    decide
  refine ⟨by decide, rfl, by decide, h, ?_⟩
  intro job hj
  rw [h] at hj
  simp at hj

/-- What `readLastJob` returns is the first match or error among the `ReadJob`
outcomes, and it returns exactly when there is one within the calls allowed. -/
theorem readLastJob_iff (c : Consts) (t fuel : Nat) : ∀ (client : Client)
    (r : Option ClientJob × Option OsError),
    (readLastJob c t fuel client).1 = Res.ret r
      ↔ firstMatchOrError t (readJobOutcomes c fuel client) = some r := by
  induction fuel with
  | zero => intro client r; simp [readLastJob, readJobOutcomes, firstMatchOrError]
  | succ fuel ih =>
    intro client r
    rw [readLastJob, readJobOutcomes]
    generalize ReadJob c client = res
    obtain ⟨o, cl⟩ := res
    cases o with
    | ret a =>
      obtain ⟨job, err⟩ := a
      cases err with
      | some e => simp [firstMatchOrError]
      | none =>
        cases job with
        | none => simp [firstMatchOrError]
        | some j =>
          by_cases ht : j.DataType = t
          · simp [firstMatchOrError, ht]
          · simp only [firstMatchOrError, ht, if_false]
            exact ih cl r
    | panic => simp [firstMatchOrError]
    | blocked => simp [firstMatchOrError]
    | timeout => simp [firstMatchOrError]

/-- The first match or error of a sequence is one of its outcomes; without error it is
a job of the requested type. -/
theorem firstMatchOrError_spec (t : Nat) :
    ∀ (outs : List (Option ClientJob × Option OsError)) (r : Option ClientJob × Option OsError),
    firstMatchOrError t outs = some r →
      r ∈ outs ∧ (r.2 = none → ∃ j, r.1 = some j ∧ j.DataType = t) := by
  intro outs
  induction outs with
  | nil => intro r h; simp [firstMatchOrError] at h
  | cons o outs ih =>
    intro r h
    obtain ⟨job, err⟩ := o
    cases err with
    | some e =>
      simp only [firstMatchOrError, Option.some.injEq] at h
      subst h
      exact ⟨List.mem_cons_self _ _, fun h => by simp at h⟩
    | none =>
      cases job with
      | none => simp [firstMatchOrError] at h
      | some j =>
        by_cases ht : j.DataType = t
        · simp only [firstMatchOrError, ht, if_true, Option.some.injEq] at h
          subst h
          exact ⟨List.mem_cons_self _ _, fun _ => ⟨j, rfl, ht⟩⟩
        · simp only [firstMatchOrError, ht, if_false] at h
          exact ⟨List.mem_cons_of_mem _ (ih r h).1, (ih r h).2⟩

/-- C12: for every requested type `t`, `readLastJob(t)` returns exactly when the
sequence of `ReadJob` outcomes holds, within the calls allowed, a job of type `t` or an
error, and then it returns the first job of type `t` if no call before it failed and
otherwise the first `ReadJob` error; a job returned without error has type `t`, and
every error returned is the error of a `ReadJob` call, so "No job got." is never
produced by `readLastJob` itself. -/
theorem readLastJob_first_match_or_error (c : Consts) (t fuel : Nat) (client : Client) :
    (∀ r : Option ClientJob × Option OsError,
        (readLastJob c t fuel client).1 = Res.ret r
          ↔ firstMatchOrError t (readJobOutcomes c fuel client) = some r)
      ∧ (∀ job : Option ClientJob, (readLastJob c t fuel client).1 = Res.ret (job, none) →
          ∃ j, job = some j ∧ j.DataType = t)
      ∧ (∀ (job : Option ClientJob) (e : OsError),
          (readLastJob c t fuel client).1 = Res.ret (job, some e) →
          (job, some e) ∈ readJobOutcomes c fuel client)
      ∧ readLastJob gearman32 20 3
          (connected [chunk (response 28 [120] ++ response 20 [72] ++ response 13 [])] [] 1)
        = (Res.ret (some ⟨RES, 20, [72]⟩, none),
            { connected [] [] 1 with
              JobQueue := [⟨RES, 28, [120]⟩], incoming := [⟨response 13 [], []⟩] })
      ∧ readLastJob gearman32 20 3
          (connected [chunk (response 28 [120]), ⟨[], some (OsError.transport 104)⟩,
            chunk (response 20 [72])] [] 1)
        = (Res.ret (none, some (OsError.transport 104)),
            { connected [chunk (response 20 [72])] [] 1 with JobQueue := [⟨RES, 28, [120]⟩] }) := by
  refine ⟨readLastJob_iff c t fuel client, ?_, ?_, by decide, by decide⟩
  · intro job h
    exact (firstMatchOrError_spec t _ _ ((readLastJob_iff c t fuel client _).mp h)).2 rfl
  · intro job e h
    exact (firstMatchOrError_spec t _ _ ((readLastJob_iff c t fuel client _).mp h)).1

/-! ## `LastJob` -/

/-- The loop of `LastJob` drops the `n` oldest entries when that many are queued. -/
theorem lastJobLoop_drop (n : Nat) : ∀ (client : Client), n ≤ client.JobQueue.length →
    lastJobLoop n client = (Res.ret (), { client with JobQueue := client.JobQueue.drop n }) := by
  induction n with
  | zero => intro client _; rfl
  | succ n ih =>
    intro client h
    obtain ⟨conn, queue, incoming, uid⟩ := client
    cases queue with
    | nil => simp at h
    | cons j queue =>
      simp only [lastJobLoop]
      rw [ih _ (by simpa using h)]
      rfl

/-- Dropping all but the last entry of a non-empty list leaves that entry. -/
theorem drop_length_pred {α : Type} (l : List α) (h : l ≠ []) :
    l.drop (l.length - 1) = [l.getLast h] := by
  have hpos : 0 < l.length := List.length_pos.mpr h
  rw [List.drop_eq_getElem_cons (by omega), List.getLast_eq_getElem,
    List.drop_of_length_le (by omega)]

/-- C15: with no producer running, `LastJob` on an empty `JobQueue` returns nil and
leaves the queue empty; on a non-empty `JobQueue` it returns the entry queued last,
drops all older entries and leaves the queue empty. -/
theorem LastJob_returns_most_recent (client : Client) :
    (client.JobQueue = [] → LastJob client = (Res.ret none, client))
      ∧ (∀ h : client.JobQueue ≠ [],
          LastJob client
            = (Res.ret (some (client.JobQueue.getLast h)), { client with JobQueue := [] })) := by
  constructor
  · intro h
    unfold LastJob
    simp [h]
  · intro h
    obtain ⟨conn, queue, incoming, uid⟩ := client
    simp only at h ⊢
    have hdrop := drop_length_pred queue h
    cases queue with
    | nil => exact absurd rfl h
    | cons j queue =>
      cases queue with
      | nil => rfl
      | cons j2 queue =>
        unfold LastJob
        rw [if_pos (by simp), if_neg (by simp), lastJobLoop_drop _ _ (by simp)]
        simp only
        rw [hdrop]
        rfl

/-- Witness of C15: of three queued jobs the third is returned and none is left. -/
theorem LastJob_returns_most_recent_witness :
    LastJob { connected [] [] 1 with
        JobQueue := [⟨RES, 28, [1]⟩, ⟨RES, 12, [2]⟩, ⟨RES, 13, [3]⟩] }
      = (Res.ret (some ⟨RES, 13, [3]⟩), connected [] [] 1) :=
  (LastJob_returns_most_recent { connected [] [] 1 with
      JobQueue := [⟨RES, 28, [1]⟩, ⟨RES, 12, [2]⟩, ⟨RES, 13, [3]⟩] }).2 (by decide)

/-! ## `Status` -/

/-- Lines 208-211: anything but five fields is a data error. -/
theorem statusFields_length_ne (handle : List Nat) (data : List (List Nat))
    (h : data.length ≠ 5) :
    statusFields handle data
      = Res.ret ⟨false, false, 0, 0, some (OsError.NewError "Data Error.")⟩ := by
  unfold statusFields
  split
  · simp at h
  · rfl

/-- Lines 212-215: five fields of which the first is not the handle. -/
theorem statusFields_handle_ne (handle : List Nat) (data : List (List Nat))
    (h5 : data.length = 5) (hh : data.head? ≠ some handle) :
    statusFields handle data
      = Res.ret ⟨false, false, 0, 0, some (OsError.NewError "Invalid handle.")⟩ := by
  match data, h5, hh with
  | [f0, f1, f2, f3, f4], _, hh =>
    have : handle ≠ f0 := fun h => hh (by simp [h])
    simp [statusFields, this]

/-- The method `Status` once the request is written and the `STATUS_RES` job is read:
lines 207-224 on the payload of that job. -/
theorem Status_of_reply (c : Consts) (client cl1 cl2 : Client) (handle : List Nat)
    (fuel : Nat) (job : ClientJob)
    (hw : WriteJob client (NewClientJob c.REQ c.GET_STATUS handle) = (Res.ret none, cl1))
    (hr : readLastJob c c.STATUS_RES fuel cl1 = (Res.ret (some job, none), cl2)) :
    Status c client handle fuel = (statusFields handle (splitByteArray job.Data 0), cl2) := by
  unfold Status
  rw [hw]
  simp only
  rw [hr]

/-- C14: for every requested handle and every payload of the `STATUS_RES` job that
`Status` reads, `Status` fails with "Data Error." when the payload does not split into
exactly five NUL-separated fields, and with "Invalid handle." when it splits into five
fields of which the first differs from the handle; in both cases `known` and `running`
are false and `numerator` and `denominator` are 0. -/
theorem Status_field_errors (c : Consts) (client cl1 cl2 : Client) (handle : List Nat)
    (fuel : Nat) (job : ClientJob)
    (hw : WriteJob client (NewClientJob c.REQ c.GET_STATUS handle) = (Res.ret none, cl1))
    (hr : readLastJob c c.STATUS_RES fuel cl1 = (Res.ret (some job, none), cl2)) :
    ((splitByteArray job.Data 0).length ≠ 5 →
        Status c client handle fuel
          = (Res.ret ⟨false, false, 0, 0, some (OsError.NewError "Data Error.")⟩, cl2))
      ∧ ((splitByteArray job.Data 0).length = 5 →
          (splitByteArray job.Data 0).head? ≠ some handle →
          Status c client handle fuel
            = (Res.ret ⟨false, false, 0, 0, some (OsError.NewError "Invalid handle.")⟩, cl2)) := by
  rw [Status_of_reply c client cl1 cl2 handle fuel job hw hr]
  constructor
  · intro h
    rw [statusFields_length_ne handle _ h]
  · intro h5 hh
    rw [statusFields_handle_ne handle _ h5 hh]

/-- Witness of C14: for handle `H`, the four-field payload `H NUL 1 NUL 0 NUL 5` gives
"Data Error." and the five-field payload `X NUL 1 NUL 0 NUL 5 NUL 9` gives
"Invalid handle.". -/
theorem Status_field_errors_witness :
    splitByteArray [72, 0, 49, 0, 48, 0, 53] 0 = [[72], [49], [48], [53]]
      ∧ Status gearman32 (connected [chunk (response 20 [72, 0, 49, 0, 48, 0, 53])]
            [⟨13, none⟩] 1) [72] 1
        = (Res.ret ⟨false, false, 0, 0, some (OsError.NewError "Data Error.")⟩,
            { connected [] [] 1 with
              conn := some ⟨[], [], [[0, 82, 69, 81, 0, 0, 0, 15, 0, 0, 0, 1, 72]]⟩ })
      ∧ splitByteArray [88, 0, 49, 0, 48, 0, 53, 0, 57] 0 = [[88], [49], [48], [53], [57]]
      ∧ Status gearman32 (connected [chunk (response 20 [88, 0, 49, 0, 48, 0, 53, 0, 57])]
            [⟨13, none⟩] 1) [72] 1
        = (Res.ret ⟨false, false, 0, 0, some (OsError.NewError "Invalid handle.")⟩,
            { connected [] [] 1 with
              conn := some ⟨[], [], [[0, 82, 69, 81, 0, 0, 0, 15, 0, 0, 0, 1, 72]]⟩ }) :=
  ⟨by decide,
    (Status_field_errors gearman32
      (connected [chunk (response 20 [72, 0, 49, 0, 48, 0, 53])] [⟨13, none⟩] 1)
      { connected [chunk (response 20 [72, 0, 49, 0, 48, 0, 53])] [] 1 with
        conn := some ⟨[chunk (response 20 [72, 0, 49, 0, 48, 0, 53])], [],
          [[0, 82, 69, 81, 0, 0, 0, 15, 0, 0, 0, 1, 72]]⟩ }
      { connected [] [] 1 with
        conn := some ⟨[], [], [[0, 82, 69, 81, 0, 0, 0, 15, 0, 0, 0, 1, 72]]⟩ }
      [72] 1 ⟨RES, 20, [72, 0, 49, 0, 48, 0, 53]⟩ (by decide) (by decide)).1 (by decide),
    by decide,
    (Status_field_errors gearman32
      (connected [chunk (response 20 [88, 0, 49, 0, 48, 0, 53, 0, 57])] [⟨13, none⟩] 1)
      { connected [chunk (response 20 [88, 0, 49, 0, 48, 0, 53, 0, 57])] [] 1 with
        conn := some ⟨[chunk (response 20 [88, 0, 49, 0, 48, 0, 53, 0, 57])], [],
          [[0, 82, 69, 81, 0, 0, 0, 15, 0, 0, 0, 1, 72]]⟩ }
      { connected [] [] 1 with
        conn := some ⟨[], [], [[0, 82, 69, 81, 0, 0, 0, 15, 0, 0, 0, 1, 72]]⟩ }
      [72] 1 ⟨RES, 20, [88, 0, 49, 0, 48, 0, 53, 0, 57]⟩ (by decide) (by decide)).2
      (by decide) (by decide)⟩

/-- C13, failing input: `Status` looks at the first byte of each field only.  For fields
two to five that start with `k`, `r` and the digits `n`, `d` it returns `known = (k is
'1')`, `running = (r is '1')`, `numerator = n - '0'`, `denominator = d - '0'`, whatever
follows in the fields; so the payload with fields `H:123`, `1`, `0`, `5`, `10` for the
handle `H:123` gives denominator 1, not the 10 written in the fifth field. -/
theorem Status_reads_first_bytes :
    (∀ (handle ks rs ns ds : List Nat) (k r n d : Nat),
        48 ≤ n ∧ n ≤ 57 → 48 ≤ d ∧ d ≤ 57 →
        statusFields handle [handle, k :: ks, r :: rs, n :: ns, d :: ds]
          = Res.ret ⟨decide (k = 49), decide (r = 49), n - 48, d - 48, none⟩)
      ∧ splitByteArray [72, 58, 49, 50, 51, 0, 49, 0, 48, 0, 53, 0, 49, 48] 0
          = [[72, 58, 49, 50, 51], [49], [48], [53], [49, 48]]
      ∧ Status gearman32
          (connected [chunk (response 20 [72, 58, 49, 50, 51, 0, 49, 0, 48, 0, 53, 0, 49, 48])]
            [⟨17, none⟩] 1) [72, 58, 49, 50, 51] 1
        = (Res.ret ⟨true, false, 5, 1, none⟩,
            { connected [] [] 1 with
              conn := some ⟨[], [],
                [[0, 82, 69, 81, 0, 0, 0, 15, 0, 0, 0, 5, 72, 58, 49, 50, 51]]⟩ }) := by
  refine ⟨?_, by decide, by decide⟩
  intro handle ks rs ns ds k r n d hn hd
  simp [statusFields, atouiOfByte, hn, hd]

/-- C20, failing input: with five fields of which the first is the handle, `Status`
evaluates `data[i][0]` on an empty field and panics: on an empty second field, on an
empty third field after a non-empty second, on an empty fourth field after non-empty
second and third, and on an empty fifth field when the fourth starts with a digit.  The
payload of the handle `H` followed by four NUL bytes splits into `H` and four empty
fields, and `Status` panics on it. -/
theorem Status_empty_field_panics :
    (∀ handle f2 f3 f4 : List Nat, statusFields handle [handle, [], f2, f3, f4] = Res.panic)
      ∧ (∀ (handle ks f3 f4 : List Nat) (k : Nat),
          statusFields handle [handle, k :: ks, [], f3, f4] = Res.panic)
      ∧ (∀ (handle ks rs f4 : List Nat) (k r : Nat),
          statusFields handle [handle, k :: ks, r :: rs, [], f4] = Res.panic)
      ∧ (∀ (handle ks rs ns : List Nat) (k r n : Nat), 48 ≤ n ∧ n ≤ 57 →
          statusFields handle [handle, k :: ks, r :: rs, n :: ns, []] = Res.panic)
      ∧ splitByteArray [72, 0, 0, 0, 0] 0 = [[72], [], [], [], []]
      ∧ Status gearman32 (connected [chunk (response 20 [72, 0, 0, 0, 0])] [⟨13, none⟩] 1)
            [72] 1
        = (Res.panic,
            { connected [] [] 1 with
              conn := some ⟨[], [], [[0, 82, 69, 81, 0, 0, 0, 15, 0, 0, 0, 1, 72]]⟩ }) := by
  refine ⟨?_, ?_, ?_, ?_, by decide, by decide⟩
  · intro handle f2 f3 f4
    simp [statusFields]
  · intro handle ks f3 f4 k
    simp [statusFields]
  · intro handle ks rs f4 k r
    simp [statusFields]
  · intro handle ks rs ns k r n hn
    simp [statusFields, atouiOfByte, hn]

/-! ## The task started by `Do` -/

/-- One step of the outcome sequence: the first outcome is what `ReadJob` returns. -/
theorem readJobOutcomes_cons (c : Consts) (n : Nat) (client : Client)
    (o : Option ClientJob × Option OsError) (outs : List (Option ClientJob × Option OsError))
    (h : readJobOutcomes c (n + 1) client = o :: outs) :
    (ReadJob c client).1 = Res.ret o ∧ readJobOutcomes c n (ReadJob c client).2 = outs := by
  rw [readJobOutcomes] at h
  generalize ReadJob c client = res at h
  obtain ⟨r, cl⟩ := res
  cases r with
  | ret a =>
    simp only [List.cons.injEq] at h
    exact ⟨by rw [h.1], h.2⟩
  | panic => simp at h
  | blocked => simp at h
  | timeout => simp at h

/-- What `ReadJob` returns is never a nil job without an error. -/
theorem ReadJob_not_nil (c : Consts) (client : Client) :
    (ReadJob c client).1 ≠ Res.ret (none, none) := by
  unfold ReadJob
  generalize read c client = res
  obtain ⟨r, cl⟩ := res
  cases r with
  | ret a =>
    obtain ⟨rel, err⟩ := a
    cases err with
    | some e => simp
    | none =>
      simp only
      cases DecodeClientJob rel.vis with
      | error e => simp
      | ok job =>
        simp only
        split
        · simp
        · split
          · split <;> simp
          · simp
  | panic => simp
  | blocked => simp
  | timeout => simp

/-- One turn of the loop of the task at a job without error that is a progress update
or not a terminal update: the loop goes on with the next call. -/
theorem drainLoop_pass (c : Consts) (fuel : Nat) (client : Client) (j : ClientJob)
    (hr : (ReadJob c client).1 = Res.ret (some j, none))
    (hj : j.DataType ∈ progressTypes c ∨ j.DataType ∉ terminalTypes c) :
    drainLoop c (fuel + 1) client = drainLoop c fuel (ReadJob c client).2 := by
  rw [drainLoop]
  generalize ReadJob c client = res at hr
  obtain ⟨r, cl⟩ := res
  simp only at hr
  subst hr
  simp only
  by_cases h1 : j.DataType = c.WORK_DATA ∨ j.DataType = c.WORK_WARNING
  · rw [if_pos h1]
  · rw [if_neg h1]
    by_cases h2 : j.DataType = c.WORK_STATUS
    · rw [if_pos h2]
    · rw [if_neg h2]
      have hnt : j.DataType ∉ terminalTypes c := by
        rcases hj with hp | hnt
        · simp only [progressTypes, List.mem_cons, List.mem_singleton, List.not_mem_nil,
            or_false] at hp
          rcases hp with h | h | h
          · exact absurd (Or.inl h) h1
          · exact absurd (Or.inr h) h1
          · exact absurd h h2
        · exact hnt
      simp only [terminalTypes, List.mem_cons, List.mem_singleton, List.not_mem_nil,
        or_false] at hnt
      rw [if_neg hnt]

/-- One turn of the loop of the task at an error or a terminal update: the task returns. -/
theorem drainLoop_stop (c : Consts) (hdist : ∀ ty ∈ terminalTypes c, ty ∉ progressTypes c)
    (fuel : Nat) (client : Client) (last : Option ClientJob × Option OsError)
    (hr : (ReadJob c client).1 = Res.ret last)
    (hlast : last.2 ≠ none ∨ ∃ j, last = (some j, none) ∧ j.DataType ∈ terminalTypes c) :
    drainLoop c (fuel + 1) client = (Res.ret (), (ReadJob c client).2) := by
  rw [drainLoop]
  generalize ReadJob c client = res at hr
  obtain ⟨r, cl⟩ := res
  simp only at hr
  subst hr
  rcases hlast with herr | ⟨j, rfl, hj⟩
  · obtain ⟨job, err⟩ := last
    cases err with
    | none => exact absurd rfl herr
    | some e => cases job <;> rfl
  · have hnp := hdist _ hj
    simp only [progressTypes, List.mem_cons, List.mem_singleton, List.not_mem_nil,
      or_false, not_or] at hnp
    simp only [terminalTypes, List.mem_cons, List.mem_singleton, List.not_mem_nil,
      or_false] at hj
    simp only [hnp.1, hnp.2.1, hnp.2.2, or_self, if_false, hj, if_true]

/-- The loop of the task passes over the jobs that are progress updates or not terminal
updates and stops at the first error or terminal update. -/
theorem drainLoop_stops (c : Consts) (hdist : ∀ ty ∈ terminalTypes c, ty ∉ progressTypes c)
    (n : Nat) : ∀ (fuel : Nat) (client : Client)
    (pre : List (Option ClientJob × Option OsError)) (last : Option ClientJob × Option OsError),
    n < fuel → readJobOutcomes c (n + 1) client = pre ++ [last] → pre.length = n →
    (∀ o ∈ pre, ∃ j, o = (some j, none)
      ∧ (j.DataType ∈ progressTypes c ∨ j.DataType ∉ terminalTypes c)) →
    (last.2 ≠ none ∨ ∃ j, last = (some j, none) ∧ j.DataType ∈ terminalTypes c) →
    drainLoop c fuel client = (Res.ret (), afterReadJobs c (n + 1) client) := by
  induction n with
  | zero =>
    intro fuel client pre last hfuel hout hlen hpre hlast
    obtain ⟨f, rfl⟩ : ∃ f, fuel = f + 1 := ⟨fuel - 1, by omega⟩
    have hp : pre = [] := List.length_eq_zero.mp hlen
    subst hp
    obtain ⟨hr, -⟩ := readJobOutcomes_cons c 0 client last [] hout
    exact drainLoop_stop c hdist f client last hr hlast
  | succ n ih =>
    intro fuel client pre last hfuel hout hlen hpre hlast
    obtain ⟨f, rfl⟩ : ∃ f, fuel = f + 1 := ⟨fuel - 1, by omega⟩
    obtain ⟨o, pre', rfl⟩ : ∃ o pre', pre = o :: pre' := by
      cases pre with
      | nil => simp at hlen
      | cons o pre' => exact ⟨o, pre', rfl⟩
    obtain ⟨hr, hrest⟩ := readJobOutcomes_cons c (n + 1) client o (pre' ++ [last]) hout
    obtain ⟨j, rfl, hj⟩ := hpre o (List.mem_cons_self _ _)
    have hih := ih f (ReadJob c client).2 pre' last (by omega) hrest (by simpa using hlen)
      (fun o ho => hpre o (List.mem_cons_of_mem _ ho)) hlast
    rw [drainLoop_pass c f client j hr hj, hih]
    rfl

/-- The loop of the task, after jobs it passes over, at a `ReadJob` call that waits or
panics: so does the task. -/
theorem drainLoop_stuck (c : Consts) (r : Res Unit) (n : Nat) : ∀ (fuel : Nat) (client : Client)
    (pre : List (Option ClientJob × Option OsError)),
    n < fuel → readJobOutcomes c n client = pre → pre.length = n →
    (∀ o ∈ pre, ∃ j, o = (some j, none)
      ∧ (j.DataType ∈ progressTypes c ∨ j.DataType ∉ terminalTypes c)) →
    ((ReadJob c (afterReadJobs c n client)).1 = Res.blocked ∧ r = Res.blocked
      ∨ (ReadJob c (afterReadJobs c n client)).1 = Res.panic ∧ r = Res.panic) →
    drainLoop c fuel client = (r, afterReadJobs c (n + 1) client) := by
  induction n with
  | zero =>
    intro fuel client pre hfuel hout hlen hpre hr
    obtain ⟨f, rfl⟩ : ∃ f, fuel = f + 1 := ⟨fuel - 1, by omega⟩
    rw [drainLoop]
    simp only [afterReadJobs] at hr ⊢
    generalize ReadJob c client = res at hr
    obtain ⟨o, cl⟩ := res
    simp only at hr
    rcases hr with ⟨h1, h2⟩ | ⟨h1, h2⟩
    · subst h1; subst h2; rfl
    · subst h1; subst h2; rfl
  | succ n ih =>
    intro fuel client pre hfuel hout hlen hpre hr
    obtain ⟨f, rfl⟩ : ∃ f, fuel = f + 1 := ⟨fuel - 1, by omega⟩
    obtain ⟨o, pre', rfl⟩ : ∃ o pre', pre = o :: pre' := by
      cases pre with
      | nil => simp at hlen
      | cons o pre' => exact ⟨o, pre', rfl⟩
    obtain ⟨hro, hrest⟩ := readJobOutcomes_cons c n client o pre' hout
    obtain ⟨j, rfl, hj⟩ := hpre o (List.mem_cons_self _ _)
    have hih := ih f (ReadJob c client).2 pre' (by omega) hrest (by simpa using hlen)
      (fun o ho => hpre o (List.mem_cons_of_mem _ ho)) hr
    rw [drainLoop_pass c f client j hro hj, hih]
    rfl

/-- When the loop of the task returns, it does so right after the first `ReadJob` call
that gave an error or a terminal update, every call before having given a job without
error that is a progress update or not a terminal update. -/
theorem drainLoop_returns (c : Consts) : ∀ (fuel : Nat) (client cl : Client),
    drainLoop c fuel client = (Res.ret (), cl) →
    ∃ (n : Nat) (pre : List (Option ClientJob × Option OsError))
      (last : Option ClientJob × Option OsError),
      n < fuel ∧ readJobOutcomes c (n + 1) client = pre ++ [last] ∧ pre.length = n
        ∧ (∀ o ∈ pre, ∃ j, o = (some j, none)
            ∧ (j.DataType ∈ progressTypes c ∨ j.DataType ∉ terminalTypes c))
        ∧ (last.2 ≠ none ∨ ∃ j, last = (some j, none) ∧ j.DataType ∈ terminalTypes c)
        ∧ cl = afterReadJobs c (n + 1) client := by
  intro fuel
  induction fuel with
  | zero =>
    intro client cl h
    simp [drainLoop] at h
  | succ f ih =>
    intro client cl h
    have hstop : ∀ last : Option ClientJob × Option OsError,
        ReadJob c client = (Res.ret last, cl) →
        (last.2 ≠ none ∨ ∃ j, last = (some j, none) ∧ j.DataType ∈ terminalTypes c) →
        ∃ (n : Nat) (pre : List (Option ClientJob × Option OsError))
          (last : Option ClientJob × Option OsError),
          n < f + 1 ∧ readJobOutcomes c (n + 1) client = pre ++ [last] ∧ pre.length = n
            ∧ (∀ o ∈ pre, ∃ j, o = (some j, none)
                ∧ (j.DataType ∈ progressTypes c ∨ j.DataType ∉ terminalTypes c))
            ∧ (last.2 ≠ none ∨ ∃ j, last = (some j, none) ∧ j.DataType ∈ terminalTypes c)
            ∧ cl = afterReadJobs c (n + 1) client := by
      intro last hr hlast
      refine ⟨0, [], last, by omega, ?_, rfl, by simp, hlast, ?_⟩
      · simp [readJobOutcomes, hr]
      · simp [afterReadJobs, hr]
    have hgo : ∀ (j : ClientJob) (cl1 : Client),
        ReadJob c client = (Res.ret (some j, none), cl1) →
        (j.DataType ∈ progressTypes c ∨ j.DataType ∉ terminalTypes c) →
        drainLoop c f cl1 = (Res.ret (), cl) →
        ∃ (n : Nat) (pre : List (Option ClientJob × Option OsError))
          (last : Option ClientJob × Option OsError),
          n < f + 1 ∧ readJobOutcomes c (n + 1) client = pre ++ [last] ∧ pre.length = n
            ∧ (∀ o ∈ pre, ∃ j, o = (some j, none)
                ∧ (j.DataType ∈ progressTypes c ∨ j.DataType ∉ terminalTypes c))
            ∧ (last.2 ≠ none ∨ ∃ j, last = (some j, none) ∧ j.DataType ∈ terminalTypes c)
            ∧ cl = afterReadJobs c (n + 1) client := by
      intro j cl1 hr hj hd
      obtain ⟨n, pre, last, hn, hout, hlen, hpre, hlast, hcl⟩ := ih cl1 cl hd
      refine ⟨n + 1, (some j, none) :: pre, last, by omega, ?_, by simp [hlen], ?_, hlast, ?_⟩
      · rw [readJobOutcomes, hr]
        simp only [List.cons_append, List.cons.injEq, true_and]
        exact hout
      · intro o ho
        rcases List.mem_cons.mp ho with rfl | ho
        · exact ⟨j, rfl, hj⟩
        · exact hpre o ho
      · rw [hcl]
        rw [show afterReadJobs c (n + 1 + 1) client
          = afterReadJobs c (n + 1) (ReadJob c client).2 from rfl, hr]
    rw [drainLoop] at h
    generalize hres : ReadJob c client = res at h hstop hgo
    obtain ⟨r, cl1⟩ := res
    cases r with
    | ret a =>
      obtain ⟨job, err⟩ := a
      cases err with
      | some e =>
        have hcl : cl1 = cl := by
          cases job <;> simpa using h
        subst hcl
        exact hstop (job, some e) rfl (Or.inl (by simp))
      | none =>
        cases job with
        | none => simp at h
        | some j =>
          simp only at h
          by_cases h1 : j.DataType = c.WORK_DATA ∨ j.DataType = c.WORK_WARNING
          · rw [if_pos h1] at h
            refine hgo j cl1 rfl (Or.inl ?_) h
            simp only [progressTypes, List.mem_cons, List.mem_singleton, List.not_mem_nil,
              or_false]
            rcases h1 with h1 | h1
            · exact Or.inl h1
            · exact Or.inr (Or.inl h1)
          · rw [if_neg h1] at h
            by_cases h2 : j.DataType = c.WORK_STATUS
            · rw [if_pos h2] at h
              refine hgo j cl1 rfl (Or.inl ?_) h
              simp only [progressTypes, List.mem_cons, List.mem_singleton, List.not_mem_nil,
                or_false]
              exact Or.inr (Or.inr h2)
            · rw [if_neg h2] at h
              by_cases h3 : j.DataType = c.WORK_COMPLETE ∨ j.DataType = c.WORK_FAIL
                  ∨ j.DataType = c.WORK_EXCEPTION
              · rw [if_pos h3] at h
                have hcl : cl1 = cl := by simpa using h
                subst hcl
                refine hstop (some j, none) rfl (Or.inr ⟨j, rfl, ?_⟩)
                simp only [terminalTypes, List.mem_cons, List.mem_singleton,
                  List.not_mem_nil, or_false]
                exact h3
              · rw [if_neg h3] at h
                refine hgo j cl1 rfl (Or.inr ?_) h
                simp only [terminalTypes, List.mem_cons, List.mem_singleton,
                  List.not_mem_nil, or_false]
                exact h3
    | panic => simp at h
    | blocked => simp at h
    | timeout => simp at h

/-- C17, amended: the terminal update types being different from the progress types.
With the `JOB_BG` bit set the task `Do` starts returns at once: it calls `ReadJob` not
once and leaves the client, its `JobQueue`, residual buffer and connection, as it is;
and `Do` itself leaves the client as `readLastJob` left it.  With the `JOB_BG` bit clear
the task calls `ReadJob` again after every job without error that is a `WORK_DATA`,
`WORK_WARNING` or `WORK_STATUS` job or of any other type that is not terminal, and
returns right after the first call that gives an error or a `WORK_COMPLETE`, `WORK_FAIL`
or `WORK_EXCEPTION` job; it returns in no other way; and when, after such jobs, a
`ReadJob` call waits (for bytes, or with a work update in hand for room in `JobQueue`)
or panics, the task waits or panics there and neither goes on nor returns. -/
theorem drainTask_by_flag (c : Consts) (flag : Nat)
    (hdist : ∀ ty ∈ terminalTypes c, ty ∉ progressTypes c) :
    (flag &&& c.JOB_BG = c.JOB_BG →
        ∀ (fuel : Nat) (client : Client), drainTask c flag fuel client = (Res.ret (), client))
      ∧ (∀ (client cl1 : Client) (funcname data : List Nat) (fuel : Nat),
          WriteJob (doRequest c client funcname data flag).2
              (doRequest c client funcname data flag).1 = (Res.ret none, cl1) →
          (Do c client funcname data flag fuel).2 = (readLastJob c c.JOB_CREATED fuel cl1).2)
      ∧ (flag &&& c.JOB_BG ≠ c.JOB_BG →
          (∀ (n fuel : Nat) (client : Client)
            (pre : List (Option ClientJob × Option OsError))
            (last : Option ClientJob × Option OsError),
            n < fuel → readJobOutcomes c (n + 1) client = pre ++ [last] → pre.length = n →
            (∀ o ∈ pre, ∃ j, o = (some j, none)
              ∧ (j.DataType ∈ progressTypes c ∨ j.DataType ∉ terminalTypes c)) →
            (last.2 ≠ none ∨ ∃ j, last = (some j, none) ∧ j.DataType ∈ terminalTypes c) →
            drainTask c flag fuel client = (Res.ret (), afterReadJobs c (n + 1) client))
          ∧ (∀ (fuel : Nat) (client cl : Client),
            drainTask c flag fuel client = (Res.ret (), cl) →
            ∃ (n : Nat) (pre : List (Option ClientJob × Option OsError))
              (last : Option ClientJob × Option OsError),
              n < fuel ∧ readJobOutcomes c (n + 1) client = pre ++ [last] ∧ pre.length = n
                ∧ (∀ o ∈ pre, ∃ j, o = (some j, none) ∧ j.DataType ∉ terminalTypes c)
                ∧ (last.2 ≠ none
                    ∨ ∃ j, last = (some j, none) ∧ j.DataType ∈ terminalTypes c)
                ∧ cl = afterReadJobs c (n + 1) client)
          ∧ (∀ (n fuel : Nat) (client : Client)
            (pre : List (Option ClientJob × Option OsError)),
            n < fuel → readJobOutcomes c n client = pre → pre.length = n →
            (∀ o ∈ pre, ∃ j, o = (some j, none)
              ∧ (j.DataType ∈ progressTypes c ∨ j.DataType ∉ terminalTypes c)) →
            ((ReadJob c (afterReadJobs c n client)).1 = Res.blocked →
              drainTask c flag fuel client = (Res.blocked, afterReadJobs c (n + 1) client))
            ∧ ((ReadJob c (afterReadJobs c n client)).1 = Res.panic →
              drainTask c flag fuel client = (Res.panic, afterReadJobs c (n + 1) client)))
          ∧ (∀ (client cl : Client) (rel : Slice) (job : ClientJob),
            read c client = (Res.ret (rel, none), cl) →
            DecodeClientJob rel.vis = Except.ok job →
            job.DataType ≠ c.ERROR → job.DataType ∈ workTypes c →
            ((ReadJob c client).1 = Res.blocked ↔ c.QUEUE_CAP ≤ client.JobQueue.length))) := by
  refine ⟨?_, ?_, ?_⟩
  · intro hbg fuel client
    unfold drainTask
    rw [if_neg (by simpa using hbg)]
  · intro client cl1 funcname data fuel hw
    unfold Do
    simp only
    rw [hw]
    simp only
    generalize readLastJob c c.JOB_CREATED fuel cl1 = res
    obtain ⟨r, cl⟩ := res
    cases r with
    | ret a =>
      obtain ⟨job, err⟩ := a
      cases err with
      | some e => cases job <;> rfl
      | none => cases job <;> rfl
    | panic => rfl
    | blocked => rfl
    | timeout => rfl
  · intro hfg
    have hT : ∀ (fuel : Nat) (client : Client),
        drainTask c flag fuel client = drainLoop c fuel client := by
      intro fuel client
      unfold drainTask
      rw [if_pos hfg]
    refine ⟨?_, ?_, ?_, ?_⟩
    · intro n fuel client pre last hfuel hout hlen hpre hlast
      rw [hT]
      exact drainLoop_stops c hdist n fuel client pre last hfuel hout hlen hpre hlast
    · intro fuel client cl h
      rw [hT] at h
      obtain ⟨n, pre, last, hn, hout, hlen, hpre, hlast, hcl⟩ := drainLoop_returns c fuel client cl h
      refine ⟨n, pre, last, hn, hout, hlen, ?_, hlast, hcl⟩
      intro o ho
      obtain ⟨j, hj, hty⟩ := hpre o ho
      refine ⟨j, hj, ?_⟩
      rcases hty with hp | hnt
      · exact fun ht => hdist _ ht hp
      · exact hnt
    · intro n fuel client pre hfuel hout hlen hpre
      refine ⟨?_, ?_⟩
      · intro hb
        rw [hT]
        exact drainLoop_stuck c Res.blocked n fuel client pre hfuel hout hlen hpre
          (Or.inl ⟨hb, rfl⟩)
      · intro hp
        rw [hT]
        exact drainLoop_stuck c Res.panic n fuel client pre hfuel hout hlen hpre
          (Or.inr ⟨hp, rfl⟩)
    · intro client cl rel job hread hdec hne hw
      have hq := read_JobQueue c client
      rw [hread] at hq
      simp only at hq
      have hw' : job.DataType ∈ [c.WORK_DATA, c.WORK_WARNING, c.WORK_STATUS, c.WORK_COMPLETE,
          c.WORK_FAIL, c.WORK_EXCEPTION] := hw
      unfold ReadJob
      rw [hread]
      simp only [hdec]
      rw [if_neg hne, if_pos hw']
      by_cases hroom : cl.JobQueue.length < c.QUEUE_CAP
      · rw [if_pos hroom]
        rw [hq] at hroom
        constructor
        · intro h
          simp at h
        · intro h
          omega
      · rw [if_neg hroom]
        rw [hq] at hroom
        exact ⟨fun _ => by omega, fun _ => rfl⟩

/-- Witness of the amended C17: `WORK_DATA`, `JOB_CREATED`, `WORK_STATUS`,
`WORK_COMPLETE` and one more `WORK_DATA` packet wait in one read.  With flag `JOB_BG`
(1) the task reads none of them; with flag `JOB_NORMAL` (0) it reads the first four,
queues the three work updates among them, and leaves the fifth. -/
theorem drainTask_by_flag_witness :
    (∀ ty ∈ terminalTypes gearman32, ty ∉ progressTypes gearman32)
      ∧ drainTask gearman32 1 5
          (connected [chunk (response 28 [1] ++ response 8 [72] ++ response 12 [2]
            ++ response 13 [3] ++ response 28 [4])] [] 2)
        = (Res.ret (), connected [chunk (response 28 [1] ++ response 8 [72] ++ response 12 [2]
            ++ response 13 [3] ++ response 28 [4])] [] 2)
      ∧ drainTask gearman32 0 5
          (connected [chunk (response 28 [1] ++ response 8 [72] ++ response 12 [2]
            ++ response 13 [3] ++ response 28 [4])] [] 2)
        = (Res.ret (),
            { connected [] [] 2 with
              JobQueue := [⟨RES, 28, [1]⟩, ⟨RES, 12, [2]⟩, ⟨RES, 13, [3]⟩],
              incoming := [⟨response 28 [4], []⟩] }) :=
  ⟨by decide,
    (drainTask_by_flag gearman32 1 (by decide)).1 (by decide) 5 _,
    (((drainTask_by_flag gearman32 0 (by decide)).2.2 (by decide)).1 3 5
      (connected [chunk (response 28 [1] ++ response 8 [72] ++ response 12 [2]
        ++ response 13 [3] ++ response 28 [4])] [] 2)
      [(some ⟨RES, 28, [1]⟩, none), (some ⟨RES, 8, [72]⟩, none), (some ⟨RES, 12, [2]⟩, none)]
      (some ⟨RES, 13, [3]⟩, none)
      (by decide) (by decide) (by decide)
      (by
        intro o ho
        simp only [List.mem_cons, List.mem_singleton, List.not_mem_nil, or_false] at ho
        rcases ho with rfl | rfl | rfl
        · exact ⟨_, rfl, by decide⟩
        · exact ⟨_, rfl, by decide⟩
        · exact ⟨_, rfl, by decide⟩)
      (Or.inr ⟨_, rfl, by decide⟩)).trans (by decide)⟩

set_option maxRecDepth 100000 in
/-- C17, counterexample: flag `JOB_NORMAL` (0), `QUEUE_CAP` (512) jobs queued, and a
`WORK_DATA` packet followed by a `WORK_COMPLETE` packet in one read.  The first
`ReadJob` call of the task waits with the `WORK_DATA` job in hand: the task does not go
on past it and does not stop at the `WORK_COMPLETE` update, which stays unread.  With
two places free in the queue the same task returns after the `WORK_COMPLETE` update. -/
theorem drainTask_blocks_on_full_queue :
    0 &&& gearman32.JOB_BG ≠ gearman32.JOB_BG
      ∧ drainTask gearman32 0 5
          { connected [chunk (response 28 [1] ++ response 13 [3])] [] 2 with
            JobQueue := List.replicate 512 ⟨RES, 12, []⟩ }
        = (Res.blocked,
            { connected [] [] 2 with
              JobQueue := List.replicate 512 ⟨RES, 12, []⟩,
              incoming := [⟨response 13 [3], []⟩] })
      ∧ drainTask gearman32 0 5
          { connected [chunk (response 28 [1] ++ response 13 [3])] [] 2 with
            JobQueue := List.replicate 510 ⟨RES, 12, []⟩ }
        = (Res.ret (),
            { connected [] [] 2 with
              JobQueue := List.replicate 510 ⟨RES, 12, []⟩
                ++ [⟨RES, 28, [1]⟩, ⟨RES, 13, [3]⟩] }) := by
  refine ⟨by decide, ?_, ?_⟩
  · decide
  · decide

/-! ## The framer: conservation and safety -/

/-- A slice expression `s[t:]` that is in range has a natural lower bound within the
length. -/
theorem Slice.sliceFrom_some (s : Slice) (t : Int) (tail : Slice)
    (h : s.sliceFrom t = some tail) :
    ∃ n : Nat, t = (n : Int) ∧ n ≤ s.len ∧ tail = ⟨s.vis.drop n, s.spare⟩ := by
  have hcond : 0 ≤ t ∧ t ≤ (s.len : Int) := by
    unfold Slice.sliceFrom Slice.slice at h
    split at h
    · rename_i hc; exact ⟨hc.1, hc.2.1⟩
    · simp at h
  obtain ⟨n, rfl⟩ := Int.eq_ofNat_of_zero_le hcond.1
  have hn : n ≤ s.len := by exact_mod_cast hcond.2
  rw [Slice.sliceFrom_natCast s n hn] at h
  exact ⟨n, rfl, hn, (Option.some.inj h).symm⟩

/-- Lines 79-87 conserve the bytes: what is returned followed by what is sent to
`incoming`, at most one entry, is the buffer. -/
theorem splitFound_conserves (c : Consts) (client client' : Client) (data out : Slice)
    (err e : Option OsError) (start : Nat)
    (h : splitFound c client data err start = (Res.ret (out, e), client')) :
    ∃ pushed : List Slice,
      client'.incoming = client.incoming ++ pushed
        ∧ out.vis ++ (pushed.map Slice.vis).flatten = data.vis
        ∧ (pushed = [] ∨ ∃ tail, pushed = [tail] ∧ tail.vis ≠ [])
        ∧ e = err := by
  unfold splitFound at h
  split at h
  · rename_i b0 b1 b2 b3 _ _ _ _
    simp only at h
    generalize wrapInt c (toInt c (byteToUint32 b0 b1 b2 b3) + 12) = total at h
    split at h
    · simp only [Prod.mk.injEq, Res.ret.injEq] at h
      obtain ⟨⟨rfl, rfl⟩, rfl⟩ := h
      exact ⟨[], by simp, by simp, Or.inl rfl, rfl⟩
    · rename_i hne
      split at h
      · simp at h
      · rename_i tail htail
        obtain ⟨n, rfl, hn, rfl⟩ := Slice.sliceFrom_some data total tail htail
        have hlt : n < data.len := by
          rcases Nat.lt_or_ge n data.len with h1 | h1
          · exact h1
          · exact absurd (by rw [Nat.le_antisymm hn h1]) hne
        split at h
        · rw [Slice.sliceTo_natCast data n hn] at h
          simp only [Prod.mk.injEq, Res.ret.injEq] at h
          obtain ⟨⟨rfl, rfl⟩, rfl⟩ := h
          refine ⟨[⟨data.vis.drop n, data.spare⟩], rfl, by simp, Or.inr ⟨_, rfl, ?_⟩, rfl⟩
          simp only [ne_eq, List.drop_eq_nil_iff, not_le]
          exact hlt
        · simp at h
  · simp at h

/-- The split loop conserves the bytes. -/
theorem splitLoop_conserves (c : Consts) (client client' : Client) (data out : Slice)
    (err e : Option OsError) (n : Nat) : ∀ (start stop : Nat),
    splitLoop c client data err n start stop = (Res.ret (out, e), client') →
    ∃ pushed : List Slice,
      client'.incoming = client.incoming ++ pushed
        ∧ out.vis ++ (pushed.map Slice.vis).flatten = data.vis
        ∧ (pushed = [] ∨ ∃ tail, pushed = [tail] ∧ tail.vis ≠ [])
        ∧ (e = err ∨ (e = some invalidFraming ∧ pushed = [])) := by
  induction n with
  | zero =>
    intro start stop h
    simp only [splitLoop, Prod.mk.injEq, Res.ret.injEq] at h
    obtain ⟨⟨rfl, rfl⟩, rfl⟩ := h
    exact ⟨[], by simp, by simp, Or.inl rfl, Or.inr ⟨rfl, rfl⟩⟩
  | succ n ih =>
    intro start stop h
    rw [splitLoop] at h
    split at h
    · simp at h
    · split at h
      · obtain ⟨pushed, h1, h2, h3, h4⟩ := splitFound_conserves c client client' data out err e start h
        exact ⟨pushed, h1, h2, h3, Or.inl h4⟩
      · exact ih _ _ h

/-- C19: whenever `read` returns from the scan of an accumulated buffer `d`, with or
without error, the bytes it returns followed by the bytes it newly sends to the
residual buffer are exactly `d`, in order; it sends at most one entry, a non-empty one,
and none when it returns the whole buffer; and the error it returns is the one the read
loop left or, with nothing sent, the invalid-framing error. -/
theorem readSplit_conserves_bytes (c : Consts) (client client' : Client) (data out : Slice)
    (err e : Option OsError)
    (h : readSplit c client data err = (Res.ret (out, e), client')) :
    ∃ pushed : List Slice,
      client'.incoming = client.incoming ++ pushed
        ∧ pushed.length ≤ 1
        ∧ out.vis ++ (pushed.map Slice.vis).flatten = data.vis
        ∧ (pushed = [] ↔ out.vis = data.vis)
        ∧ (e = err ∨ (e = some invalidFraming ∧ pushed = [])) := by
  obtain ⟨pushed, h1, h2, h3, h4⟩ :=
    splitLoop_conserves c client client' data out err e data.len 0 4 h
  refine ⟨pushed, h1, ?_, h2, ?_, h4⟩
  · rcases h3 with rfl | ⟨tail, rfl, -⟩ <;> simp
  · rcases h3 with rfl | ⟨tail, rfl, ht⟩
    · simpa using h2
    · simp only [List.map_cons, List.map_nil, List.flatten_cons, List.flatten_nil,
        List.append_nil] at h2
      constructor
      · intro hp; simp at hp
      · intro ho
        rw [ho] at h2
        exact absurd (List.append_right_eq_self.mp h2) ht

/-- Witness of C19: a buffer holding a packet and three more bytes; the packet is
returned and the three bytes are the one entry sent to the residual buffer. -/
theorem readSplit_conserves_bytes_witness :
    ∃ pushed : List Slice,
      ({ connected [] [] 1 with incoming := [⟨[7, 8, 9], []⟩] } : Client).incoming
          = (connected [] [] 1).incoming ++ pushed
        ∧ pushed.length ≤ 1
        ∧ (⟨response 8 [72], [7, 8, 9]⟩ : Slice).vis ++ (pushed.map Slice.vis).flatten
          = (⟨response 8 [72] ++ [7, 8, 9], []⟩ : Slice).vis
        ∧ (pushed = [] ↔ (⟨response 8 [72], [7, 8, 9]⟩ : Slice).vis
            = (⟨response 8 [72] ++ [7, 8, 9], []⟩ : Slice).vis)
        ∧ ((none : Option OsError) = none
            ∨ ((none : Option OsError) = some invalidFraming ∧ pushed = [])) :=
  readSplit_conserves_bytes gearman32 (connected [] [] 1)
    { connected [] [] 1 with incoming := [⟨[7, 8, 9], []⟩] }
    ⟨response 8 [72] ++ [7, 8, 9], []⟩ ⟨response 8 [72], [7, 8, 9]⟩ none none (by decide)

/-- A slice expression `s[t:]` with `t` beyond the length is out of range. -/
theorem Slice.sliceFrom_none (s : Slice) (t : Nat) (h : s.len < t) :
    s.sliceFrom (t : Int) = none := by
  unfold Slice.sliceFrom Slice.slice
  have : ¬ ((0 : Int) ≤ t ∧ (t : Int) ≤ (s.len : Int) ∧ (s.len : Int) ≤ (s.cap : Int)) := by
    omega
  rw [if_neg this]

/-- Lines 79-87 for a magic whose header is cut off by the end of the buffer: an index
expression is out of range. -/
theorem splitFound_truncated_header (c : Consts) (client : Client) (data : Slice)
    (err : Option OsError) (start : Nat) (h : data.len < start + 12) :
    splitFound c client data err start = (Res.panic, client) := by
  have h11 : data.index ((start + 11 : Nat) : Int) = none := by
    rw [Slice.index_natCast, List.get?_eq_getElem?]
    exact List.getElem?_eq_none (by unfold Slice.len at h; omega)
  unfold splitFound
  split
  · rename_i heq
    rw [h11] at heq
    simp at heq
  · rfl

/-- Lines 79-87 for a magic whose declared total, counted from the start of the buffer,
exceeds the buffer length: the slice expression `data[total:]` is out of range. -/
theorem splitFound_truncated_payload (c : Consts) (client : Client) (data : Slice)
    (err : Option OsError) (start : Nat) (hhdr : start + 12 ≤ data.len)
    (hlen : data.len < lengthField (data.vis.drop start) + 12)
    (hint : lengthField (data.vis.drop start) + 12 < 2 ^ (c.intBits - 1)) :
    splitFound c client data err start = (Res.panic, client) := by
  have h12 : start + 12 ≤ data.vis.length := hhdr
  have hg : ∀ i, i < 12 → data.vis.get? (start + i) = some ((data.vis.drop start).getD i 0) := by
    intro i hi
    have hi' : start + i < data.vis.length := by omega
    have hi2 : i < (data.vis.drop start).length := by rw [List.length_drop]; omega
    rw [List.getD, List.get?_eq_getElem?, List.get?_eq_getElem?, List.getElem?_eq_getElem hi',
      List.getElem?_eq_getElem hi2, List.getElem_drop]
    rfl
  unfold splitFound
  simp only [Slice.index_natCast, hg 8 (by omega), hg 9 (by omega),
    hg 10 (by omega), hg 11 (by omega)]
  have hLF : lengthField (data.vis.drop start)
      = byteToUint32 ((data.vis.drop start).getD 8 0) ((data.vis.drop start).getD 9 0)
          ((data.vis.drop start).getD 10 0) ((data.vis.drop start).getD 11 0) := rfl
  rw [← hLF]
  have hL : lengthField (data.vis.drop start) < 2 ^ (c.intBits - 1) := by omega
  have hw : wrapInt c (toInt c (lengthField (data.vis.drop start)) + 12)
      = ((lengthField (data.vis.drop start) + 12 : Nat) : Int) := by
    rw [toInt_of_small c _ hL]
    have := wrapInt_of_small c _ hint
    push_cast at this ⊢
    exact this
  rw [hw]
  have hne : ¬ ((lengthField (data.vis.drop start) + 12 : Nat) : Int) = (data.len : Int) := by
    omega
  rw [if_neg hne, Slice.sliceFrom_none data _ hlen]

/-- C18, failing inputs: the scan of lines 74-95 does make out-of-range accesses, in
each of the three situations the claim names.  Truncated header: a buffer that starts
with the magic and is shorter than 12 bytes panics at `data[start+8..start+11]`.
Truncated payload: a buffer that starts with the magic and whose declared length plus
12 exceeds its length panics at `data[total:]`.  Last offsets: a non-empty buffer
without magic whose capacity is its length panics at `data[i:i+4]`.  One buffer of each
kind is evaluated at the end. -/
theorem readSplit_out_of_range :
    (∀ (c : Consts) (client : Client) (data : Slice) (err : Option OsError),
        data.vis.take 4 = RES_STR → data.len < 12 →
        readSplit c client data err = (Res.panic, client))
      ∧ (∀ (c : Consts) (client : Client) (data : Slice) (err : Option OsError),
          data.vis.take 4 = RES_STR → 12 ≤ data.len →
          data.len < lengthField data.vis + 12 →
          lengthField data.vis + 12 < 2 ^ (c.intBits - 1) →
          readSplit c client data err = (Res.panic, client))
      ∧ (∀ (c : Consts) (client : Client) (bytes : List Nat) (err : Option OsError),
          bytes ≠ [] → (∀ i, (bytes.drop i).take 4 ≠ RES_STR) →
          readSplit c client ⟨bytes, []⟩ err = (Res.panic, client))
      ∧ read gearman32 (connected [chunk [0, 82, 69, 83, 0, 0, 0, 8]] [] 1)
          = (Res.panic, connected [] [] 1)
      ∧ read gearman32 (connected [chunk [0, 82, 69, 83, 0, 0, 0, 8, 0, 0, 0, 3, 72]] [] 1)
          = (Res.panic, connected [] [] 1)
      ∧ read gearman32 (connected [chunk [65, 0, 82, 69]] [] 1)
          = (Res.panic, connected [] [] 1) := by
  refine ⟨?_, ?_, ?_, by decide, by decide, by decide⟩
  · intro c client data err hmagic hlen
    have h4 : 4 ≤ data.vis.length := by
      have := congrArg List.length hmagic
      simp only [List.length_take, RES_STR, List.length_cons, List.length_nil] at this
      omega
    obtain ⟨n, hn⟩ : ∃ n, data.len = n + 1 := ⟨data.len - 1, by unfold Slice.len; omega⟩
    have hfound := splitLoop_found c client data err n 0
      (by unfold Slice.cap; omega)
      (by rw [backing_window data 0 (by unfold Slice.len; omega)]; simpa using hmagic)
    simp only [Nat.zero_add] at hfound
    unfold readSplit
    rw [hn, hfound]
    exact splitFound_truncated_header c client data err 0 (by omega)
  · intro c client data err hmagic h12 hlen hint
    obtain ⟨n, hn⟩ : ∃ n, data.len = n + 1 := ⟨data.len - 1, by omega⟩
    have hfound := splitLoop_found c client data err n 0
      (by unfold Slice.cap Slice.len at *; omega)
      (by rw [backing_window data 0 (by omega)]; simpa using hmagic)
    simp only [Nat.zero_add] at hfound
    unfold readSplit
    rw [hn, hfound]
    exact splitFound_truncated_payload c client data err 0 (by omega) (by simpa using hlen)
      (by simpa using hint)
  · intro c client bytes err hne hno
    rw [readSplit_no_magic c client ⟨bytes, []⟩ err (by simpa [Slice.backing] using hno)]
    have : 0 < bytes.length := List.length_pos.mpr hne
    rw [if_neg]
    simp only [Slice.len, Slice.cap, List.length_nil]
    omega

/-! ## The end-to-end scenario: auxiliary facts -/

/-- The method `WriteJob` on an open connection changes nothing but what is left to
write and what was sent. -/
theorem WriteJob_frame (client : Client) (conn : Conn) (job : ClientJob)
    (hconn : client.conn = some conn) :
    ∃ (writes : List WriteEvent) (sent : List (List Nat)),
      (WriteJob client job).2
        = { client with conn := some { conn with writes := writes, sent := sent } } := by
  unfold WriteJob write
  rw [hconn]
  exact ⟨_, _, rfl⟩

/-- Decoding a response packet gives its type and payload. -/
theorem DecodeClientJob_response (ty : Nat) (payload : List Nat) (hty : ty < 2 ^ 32)
    (hpl : payload.length < 2 ^ 32) :
    DecodeClientJob (response ty payload) = Except.ok ⟨RES, ty, payload⟩ := by
  have hl := response_length ty payload
  have hLF : byteToUint32 ((response ty payload).getD 8 0) ((response ty payload).getD 9 0)
      ((response ty payload).getD 10 0) ((response ty payload).getD 11 0) = payload.length := by
    have := response_lengthField ty payload [] hpl
    simpa [lengthField] using this
  have hTY : byteToUint32 ((response ty payload).getD 4 0) ((response ty payload).getD 5 0)
      ((response ty payload).getD 6 0) ((response ty payload).getD 7 0) = ty := by
    have := byteToUint32_uint32ToByte ty hty
    simpa [response, RES_STR, uint32ToByte] using this
  have hM : byteToUint32 ((response ty payload).getD 0 0) ((response ty payload).getD 1 0)
      ((response ty payload).getD 2 0) ((response ty payload).getD 3 0) = RES := by
    simp [response, RES_STR, uint32ToByte, RES]
  have hT4 : (response ty payload).take 4 = RES_STR := by
    simpa using response_take ty payload []
  have hD : (response ty payload).drop 12 = payload := by
    simp [response, RES_STR, uint32ToByte]
  unfold DecodeClientJob
  rw [if_neg (by omega), if_neg (by simp [hT4]), if_neg (by rw [hLF, hl]; simp), hM, hTY, hD]
  rfl

/-- The method `read` when one short `Read` delivers a response packet, possibly
followed by more bytes: the packet is returned and the other bytes become the residual
entry. -/
theorem read_chunk_packet (c : Consts) (client : Client) (conn : Conn) (ty : Nat)
    (payload more : List Nat) (rest : List ReadEvent)
    (hinc : client.incoming = []) (hconn : client.conn = some conn)
    (hreads : conn.reads = chunk (response ty payload ++ more) :: rest)
    (hshort : (response ty payload ++ more).length < c.BUFFER_SIZE)
    (hint : (response ty payload ++ more).length < 2 ^ (c.intBits - 1))
    (hq : more = [] ∨ 0 < c.QUEUE_CAP) (hpl : payload.length < 2 ^ 32) :
    ∃ s : Slice, s.vis = response ty payload
      ∧ read c client
        = (Res.ret (s, none),
            { client with
              conn := some { conn with reads := rest },
              incoming := if more = [] then []
                else [⟨more, (Slice.empty.append c (response ty payload ++ more)).spare⟩] }) := by
  have hl := response_length ty payload
  have hvis : (Slice.empty.append c (response ty payload ++ more)).vis
      = response ty payload ++ more := by
    rw [Slice.append_vis]; rfl
  generalize hd : Slice.empty.append c (response ty payload ++ more) = d at hvis
  have hdlen : d.len = payload.length + 12 + more.length := by
    unfold Slice.len; rw [hvis, List.length_append, hl]
  have hLF : lengthField d.vis = payload.length := by
    rw [hvis]; exact response_lengthField ty payload _ hpl
  rw [List.length_append, hl] at hshort hint
  have hread : read c client
      = readSplit c { client with conn := some { conn with reads := rest } } d none := by
    rw [read_from_transport c client conn hinc hconn, hreads, readLoop_short c _ _ _
      (by rw [List.length_append, hl]; exact hshort), hd]
  rw [hread, readSplit_at_zero c _ d none (by rw [hvis]; exact response_take ty payload _)
    (by rw [hLF, hdlen]; omega) (by rw [hdlen]; exact hint)]
  by_cases hm : more = []
  · subst hm
    refine ⟨d, by simpa using hvis, ?_⟩
    rw [if_pos (by rw [hLF, hdlen]; simp), if_pos rfl]
    simp [hinc]
  · have hmpos : 0 < more.length := List.length_pos.mpr hm
    have hq' : 0 < c.QUEUE_CAP := hq.resolve_left hm
    refine ⟨⟨response ty payload, more ++ d.spare⟩, rfl, ?_⟩
    rw [if_neg (by rw [hLF, hdlen]; omega), if_neg hm]
    simp only [hinc, List.length_nil, hq', if_true, List.nil_append, hLF]
    rw [hvis, ← hl, List.take_left, List.drop_left]

/-- The method `read` when the residual buffer holds exactly one response packet: it is
returned and no `Read` is issued. -/
theorem read_residual_packet (c : Consts) (client : Client) (ty : Nat) (payload : List Nat)
    (spare : List Nat) (hinc : client.incoming = [⟨response ty payload, spare⟩])
    (hint : (response ty payload).length < 2 ^ (c.intBits - 1))
    (hpl : payload.length < 2 ^ 32) :
    read c client
      = (Res.ret (⟨response ty payload, spare⟩, none), { client with incoming := [] }) := by
  have hl := response_length ty payload
  have hLF : lengthField (response ty payload) = payload.length := by
    simpa using response_lengthField ty payload [] hpl
  unfold read
  rw [hinc]
  simp only
  rw [readSplit_at_zero c _ _ none (by simpa using response_take ty payload [])
    (by unfold Slice.len; simp only; rw [hLF, hl])
    (by unfold Slice.len; simp only; exact hint)]
  rw [if_pos (by unfold Slice.len; simp only; rw [hLF, hl])]

/-- The method `ReadJob` on a framed response packet that is neither an error nor a
work update: the job is returned and nothing is queued. -/
theorem ReadJob_plain (c : Consts) (client cl : Client) (s : Slice) (ty : Nat)
    (payload : List Nat) (hread : read c client = (Res.ret (s, none), cl))
    (hs : s.vis = response ty payload) (hty : ty < 2 ^ 32) (hpl : payload.length < 2 ^ 32)
    (hE : ty ≠ c.ERROR) (hW : ty ∉ workTypes c) :
    ReadJob c client = (Res.ret (some ⟨RES, ty, payload⟩, none), cl) := by
  have hW' : ty ∉ [c.WORK_DATA, c.WORK_WARNING, c.WORK_STATUS, c.WORK_COMPLETE,
      c.WORK_FAIL, c.WORK_EXCEPTION] := hW
  unfold ReadJob
  rw [hread]
  simp only [hs, DecodeClientJob_response ty payload hty hpl]
  rw [if_neg hE, if_neg hW']

/-- The method `ReadJob` on a framed work update: the job is returned and queued. -/
theorem ReadJob_work (c : Consts) (client cl : Client) (s : Slice) (ty : Nat)
    (payload : List Nat) (hread : read c client = (Res.ret (s, none), cl))
    (hs : s.vis = response ty payload) (hty : ty < 2 ^ 32) (hpl : payload.length < 2 ^ 32)
    (hE : ty ≠ c.ERROR) (hW : ty ∈ workTypes c) (hroom : cl.JobQueue.length < c.QUEUE_CAP) :
    ReadJob c client
      = (Res.ret (some ⟨RES, ty, payload⟩, none),
          { cl with JobQueue := cl.JobQueue ++ [⟨RES, ty, payload⟩] }) := by
  have hW' : ty ∈ [c.WORK_DATA, c.WORK_WARNING, c.WORK_STATUS, c.WORK_COMPLETE,
      c.WORK_FAIL, c.WORK_EXCEPTION] := hW
  unfold ReadJob
  rw [hread]
  simp only [hs, DecodeClientJob_response ty payload hty hpl]
  rw [if_neg hE, if_pos hW', if_pos hroom]

/-- The method `readLastJob` returns the job of the first call when it has the
requested type. -/
theorem readLastJob_hit (c : Consts) (t fuel : Nat) (client cl : Client) (job : ClientJob)
    (h : ReadJob c client = (Res.ret (some job, none), cl)) (ht : job.DataType = t) :
    readLastJob c t (fuel + 1) client = (Res.ret (some job, none), cl) := by
  rw [readLastJob, h]
  simp only
  rw [if_pos ht, if_neg (by simpa using ht)]

/-- The loop of the task returns after a first call that gives a terminal update. -/
theorem drainLoop_terminal (c : Consts) (fuel : Nat) (client cl : Client) (job : ClientJob)
    (h : ReadJob c client = (Res.ret (some job, none), cl))
    (hp : job.DataType ∉ progressTypes c) (ht : job.DataType ∈ terminalTypes c) :
    drainLoop c (fuel + 1) client = (Res.ret (), cl) := by
  simp only [progressTypes, List.mem_cons, List.mem_singleton, List.not_mem_nil,
    or_false, not_or] at hp
  simp only [terminalTypes, List.mem_cons, List.mem_singleton, List.not_mem_nil,
    or_false] at ht
  rw [drainLoop, h]
  simp only [hp.1, hp.2.1, hp.2.2, or_self, if_false, ht, if_true]

/-- The method `Do` once the request is written and `readLastJob` has returned a job:
the payload of that job is the handle. -/
theorem Do_of_reply (c : Consts) (client clw cl1 : Client) (funcname data : List Nat)
    (flag fuel : Nat) (job : ClientJob)
    (hw : WriteJob (doRequest c client funcname data flag).2
      (doRequest c client funcname data flag).1 = (Res.ret none, clw))
    (hr : readLastJob c c.JOB_CREATED fuel clw = (Res.ret (some job, none), cl1)) :
    Do c client funcname data flag fuel = (Res.ret (job.Data, none), cl1) := by
  unfold Do
  simp only
  rw [hw]
  simp only
  rw [hr]

/-! ## The end-to-end scenario -/

/-- C16, amended: a foreground `Do` (`JOB_BG` bit clear) on a client with empty queues
whose request is written without error and which the server answers with a
`JOB_CREATED` packet carrying `h` followed by a `WORK_COMPLETE` packet carrying `r`,
the two packets arriving in one transport read or in two, every such read being shorter
than `BUFFER_SIZE`: `Do` returns the handle `h` without error; the task it starts
returns after one `ReadJob`, with the `WORK_COMPLETE` job queued, the residual buffer
empty and no further `Read` result consumed; and `LastJob` then returns the job with
`DataType = WORK_COMPLETE` and `Data = r`.  The packet types are taken below `2 ^ 32`,
different from `ERROR`, `JOB_CREATED` not a work update and `WORK_COMPLETE` not a
progress update. -/
theorem Do_foreground_scenario (c : Consts) (client : Client) (conn : Conn)
    (funcname data h r : List Nat) (flag fuel : Nat) (rest : List ReadEvent)
    (hinc : client.incoming = []) (hqueue : client.JobQueue = [])
    (hconn : client.conn = some conn)
    (hflag : flag &&& c.JOB_BG ≠ c.JOB_BG) (hfuel : 0 < fuel)
    (hwrite : (WriteJob (doRequest c client funcname data flag).2
      (doRequest c client funcname data flag).1).1 = Res.ret none)
    (harr : (conn.reads = chunk (response c.JOB_CREATED h ++ response c.WORK_COMPLETE r) :: rest
        ∧ (response c.JOB_CREATED h ++ response c.WORK_COMPLETE r).length < c.BUFFER_SIZE)
      ∨ (conn.reads = chunk (response c.JOB_CREATED h) :: chunk (response c.WORK_COMPLETE r) :: rest
        ∧ (response c.JOB_CREATED h).length < c.BUFFER_SIZE
        ∧ (response c.WORK_COMPLETE r).length < c.BUFFER_SIZE))
    (hint : (response c.JOB_CREATED h ++ response c.WORK_COMPLETE r).length
      < 2 ^ (c.intBits - 1))
    (hcap : 0 < c.QUEUE_CAP) (hh : h.length < 2 ^ 32) (hr : r.length < 2 ^ 32)
    (hC : c.JOB_CREATED < 2 ^ 32 ∧ c.JOB_CREATED ≠ c.ERROR ∧ c.JOB_CREATED ∉ workTypes c)
    (hW : c.WORK_COMPLETE < 2 ^ 32 ∧ c.WORK_COMPLETE ≠ c.ERROR
      ∧ c.WORK_COMPLETE ∉ progressTypes c) :
    ∃ cl1 cl2 : Client,
      Do c client funcname data flag fuel = (Res.ret (h, none), cl1)
        ∧ drainTask c flag fuel cl1 = (Res.ret (), cl2)
        ∧ cl2.JobQueue = [⟨RES, c.WORK_COMPLETE, r⟩]
        ∧ cl2.incoming = []
        ∧ cl2.conn.map Conn.reads = some rest
        ∧ LastJob cl2
          = (Res.ret (some ⟨RES, c.WORK_COMPLETE, r⟩), { cl2 with JobQueue := [] }) := by
  obtain ⟨f, rfl⟩ : ∃ f, fuel = f + 1 := ⟨fuel - 1, by omega⟩
  have hl1 := response_length c.JOB_CREATED h
  have hl2 := response_length c.WORK_COMPLETE r
  rw [List.length_append] at hint
  have hWm : c.WORK_COMPLETE ∈ workTypes c := by simp [workTypes]
  have hWt : c.WORK_COMPLETE ∈ terminalTypes c := by simp [terminalTypes]
  have hp2 : response c.WORK_COMPLETE r ≠ [] := by
    intro h0
    rw [h0] at hl2
    simp at hl2
  -- the client after the request is written
  obtain ⟨writes, sent, hstate⟩ := WriteJob_frame (doRequest c client funcname data flag).2
    conn (doRequest c client funcname data flag).1 hconn
  generalize hclw : (WriteJob (doRequest c client funcname data flag).2
    (doRequest c client funcname data flag).1) = res at hwrite hstate
  obtain ⟨o, clw⟩ := res
  simp only at hwrite hstate
  subst hwrite
  have hwinc : clw.incoming = [] := by rw [hstate]; exact hinc
  have hwq : clw.JobQueue = [] := by rw [hstate]; exact hqueue
  have hwconn : clw.conn = some { conn with writes := writes, sent := sent } := by rw [hstate]
  rcases harr with ⟨hreads, hshort⟩ | ⟨hreads, hshort1, hshort2⟩
  · -- one transport read
    obtain ⟨s1, hs1, hread1⟩ := read_chunk_packet c clw _ c.JOB_CREATED h
      (response c.WORK_COMPLETE r) rest hwinc hwconn hreads hshort
      (by rw [List.length_append]; exact hint) (Or.inr hcap) hh
    rw [if_neg hp2] at hread1
    have hjob1 := ReadJob_plain c clw _ s1 c.JOB_CREATED h hread1 hs1 hC.1 hh hC.2.1 hC.2.2
    have hdo := Do_of_reply c client clw _ funcname data flag (f + 1) _ hclw
      (readLastJob_hit c c.JOB_CREATED f clw _ _ hjob1 rfl)
    have hread2 := read_residual_packet c _ c.WORK_COMPLETE r _
      (show ({ clw with
          conn := some { ({ conn with writes := writes, sent := sent } : Conn) with reads := rest },
          incoming := [⟨response c.WORK_COMPLETE r,
            (Slice.empty.append c (response c.JOB_CREATED h ++ response c.WORK_COMPLETE r)).spare⟩] }
          : Client).incoming = _ from rfl)
      (by omega) hr
    have hjob2 := ReadJob_work c _ _ _ c.WORK_COMPLETE r hread2 rfl hW.1 hr hW.2.1 hWm
      (by simp only [hwq, List.length_nil]; exact hcap)
    have hdrain := drainLoop_terminal c f _ _ _ hjob2 hW.2.2 hWt
    have htask := hdrain
    rw [← show drainTask c flag (f + 1) _ = drainLoop c (f + 1) _ from by
      unfold drainTask; rw [if_pos hflag]] at htask
    refine ⟨_, _, hdo, htask, ?_, rfl, rfl, ?_⟩
    · simp only [hwq, List.nil_append]
    · simp only [hwq, List.nil_append]
      rfl
  · -- two transport reads
    obtain ⟨s1, hs1, hread1⟩ := read_chunk_packet c clw _ c.JOB_CREATED h [] _ hwinc hwconn
      (by simpa using hreads) (by simpa using hshort1) (by simp only [List.append_nil]; omega)
      (Or.inl rfl) hh
    rw [if_pos rfl] at hread1
    have hjob1 := ReadJob_plain c clw _ s1 c.JOB_CREATED h hread1 hs1 hC.1 hh hC.2.1 hC.2.2
    have hdo := Do_of_reply c client clw _ funcname data flag (f + 1) _ hclw
      (readLastJob_hit c c.JOB_CREATED f clw _ _ hjob1 rfl)
    obtain ⟨s2, hs2, hread2⟩ := read_chunk_packet c
      { clw with
        conn := some { ({ conn with writes := writes, sent := sent } : Conn) with
          reads := chunk (response c.WORK_COMPLETE r) :: rest },
        incoming := [] }
      { ({ conn with writes := writes, sent := sent } : Conn) with
          reads := chunk (response c.WORK_COMPLETE r) :: rest }
      c.WORK_COMPLETE r [] rest rfl rfl (by simp) (by simpa using hshort2)
      (by simp only [List.append_nil]; omega) (Or.inl rfl) hr
    rw [if_pos rfl] at hread2
    have hjob2 := ReadJob_work c _ _ s2 c.WORK_COMPLETE r hread2 hs2 hW.1 hr hW.2.1 hWm
      (by simp only [hwq, List.length_nil]; exact hcap)
    have hdrain := drainLoop_terminal c f _ _ _ hjob2 hW.2.2 hWt
    have htask := hdrain
    rw [← show drainTask c flag (f + 1) _ = drainLoop c (f + 1) _ from by
      unfold drainTask; rw [if_pos hflag]] at htask
    refine ⟨_, _, hdo, htask, ?_, rfl, rfl, ?_⟩
    · simp only [hwq, List.nil_append]
    · simp only [hwq, List.nil_append]
      rfl

/-- Witness of the amended C16: `Do("reverse", "abc", JOB_NORMAL)` answered by
`JOB_CREATED` with `H:1` and `WORK_COMPLETE` with `cba`, arriving in one read and in
two; in both runs `LastJob` after the task returns the `WORK_COMPLETE` job with `cba`. -/
theorem Do_foreground_scenario_witness :
    (∃ cl1 cl2 : Client,
      Do gearman32
          (connected [chunk (response 8 [72, 58, 49] ++ response 13 [99, 98, 97])]
            [⟨25, none⟩] 1)
          [114, 101, 118, 101, 114, 115, 101] [97, 98, 99] 0 1
        = (Res.ret ([72, 58, 49], none), cl1)
        ∧ drainTask gearman32 0 1 cl1 = (Res.ret (), cl2)
        ∧ cl2.JobQueue = [⟨RES, 13, [99, 98, 97]⟩]
        ∧ cl2.incoming = []
        ∧ cl2.conn.map Conn.reads = some []
        ∧ LastJob cl2 = (Res.ret (some ⟨RES, 13, [99, 98, 97]⟩), { cl2 with JobQueue := [] }))
    ∧ (∃ cl1 cl2 : Client,
      Do gearman32
          (connected [chunk (response 8 [72, 58, 49]), chunk (response 13 [99, 98, 97])]
            [⟨25, none⟩] 1)
          [114, 101, 118, 101, 114, 115, 101] [97, 98, 99] 0 1
        = (Res.ret ([72, 58, 49], none), cl1)
        ∧ drainTask gearman32 0 1 cl1 = (Res.ret (), cl2)
        ∧ cl2.JobQueue = [⟨RES, 13, [99, 98, 97]⟩]
        ∧ cl2.incoming = []
        ∧ cl2.conn.map Conn.reads = some []
        ∧ LastJob cl2 = (Res.ret (some ⟨RES, 13, [99, 98, 97]⟩), { cl2 with JobQueue := [] }))
    ∧ (LastJob (drainTask gearman32 0 1 (Do gearman32
          (connected [chunk (response 8 [72, 58, 49] ++ response 13 [99, 98, 97])]
            [⟨25, none⟩] 1)
          [114, 101, 118, 101, 114, 115, 101] [97, 98, 99] 0 1).2).2).1
        = Res.ret (some ⟨RES, 13, [99, 98, 97]⟩) :=
  ⟨Do_foreground_scenario gearman32
      (connected [chunk (response 8 [72, 58, 49] ++ response 13 [99, 98, 97])] [⟨25, none⟩] 1)
      ⟨[chunk (response 8 [72, 58, 49] ++ response 13 [99, 98, 97])], [⟨25, none⟩], []⟩
      [114, 101, 118, 101, 114, 115, 101] [97, 98, 99] [72, 58, 49] [99, 98, 97] 0 1 []
      rfl rfl rfl (by decide) (by decide) (by decide) (Or.inl ⟨rfl, by decide⟩) (by decide)
      (by decide) (by decide) (by decide) (by decide) (by decide),
    Do_foreground_scenario gearman32
      (connected [chunk (response 8 [72, 58, 49]), chunk (response 13 [99, 98, 97])]
        [⟨25, none⟩] 1)
      ⟨[chunk (response 8 [72, 58, 49]), chunk (response 13 [99, 98, 97])], [⟨25, none⟩], []⟩
      [114, 101, 118, 101, 114, 115, 101] [97, 98, 99] [72, 58, 49] [99, 98, 97] 0 1 []
      rfl rfl rfl (by decide) (by decide) (by decide)
      (Or.inr ⟨rfl, by decide, by decide⟩) (by decide)
      (by decide) (by decide) (by decide) (by decide) (by decide),
    by decide⟩

set_option maxRecDepth 100000 in
/-- C16, counterexample: `Do("reverse", "abc", JOB_NORMAL)` answered by `JOB_CREATED`
with `H:1` and, in a second transport read, by a `WORK_COMPLETE` packet whose payload of
1012 bytes makes it exactly `BUFFER_SIZE` (1024) bytes long.  `Do` returns `H:1`, but
the task does not stop after the `WORK_COMPLETE` packet: the full read buffer makes
`read` issue another `Read`, which blocks with nothing queued, and `LastJob` returns
nil; when the server then closes the connection the task ends on `os.EOF`, again with
nothing queued. -/
theorem Do_foreground_full_buffer :
    (response 13 (List.replicate 1012 97)).length = gearman32.BUFFER_SIZE
      ∧ (0 &&& gearman32.JOB_BG ≠ gearman32.JOB_BG)
      ∧ (Do gearman32
          (connected [chunk (response 8 [72, 58, 49]),
            chunk (response 13 (List.replicate 1012 97))] [⟨25, none⟩] 1)
          [114, 101, 118, 101, 114, 115, 101] [97, 98, 99] 0 3).1
        = Res.ret ([72, 58, 49], none)
      ∧ drainTask gearman32 0 3 (Do gearman32
          (connected [chunk (response 8 [72, 58, 49]),
            chunk (response 13 (List.replicate 1012 97))] [⟨25, none⟩] 1)
          [114, 101, 118, 101, 114, 115, 101] [97, 98, 99] 0 3).2
        = (Res.blocked,
            { connected [] [] 2 with
              conn := some ⟨[], [], [[0, 82, 69, 81, 0, 0, 0, 7, 0, 0, 0, 13, 114, 101, 118,
                101, 114, 115, 101, 0, 49, 0, 97, 98, 99]]⟩ })
      ∧ LastJob { connected [] [] 2 with
              conn := some ⟨[], [], [[0, 82, 69, 81, 0, 0, 0, 7, 0, 0, 0, 13, 114, 101, 118,
                101, 114, 115, 101, 0, 49, 0, 97, 98, 99]]⟩ }
        = (Res.ret none,
            { connected [] [] 2 with
              conn := some ⟨[], [], [[0, 82, 69, 81, 0, 0, 0, 7, 0, 0, 0, 13, 114, 101, 118,
                101, 114, 115, 101, 0, 49, 0, 97, 98, 99]]⟩ })
      ∧ drainTask gearman32 0 3 (Do gearman32
          (connected [chunk (response 8 [72, 58, 49]),
            chunk (response 13 (List.replicate 1012 97)), ⟨[], some OsError.EOF⟩]
            [⟨25, none⟩] 1)
          [114, 101, 118, 101, 114, 115, 101] [97, 98, 99] 0 3).2
        = (Res.ret (),
            { connected [] [] 2 with
              conn := some ⟨[], [], [[0, 82, 69, 81, 0, 0, 0, 7, 0, 0, 0, 13, 114, 101, 118,
                101, 114, 115, 101, 0, 49, 0, 97, 98, 99]]⟩ }) := by
  decide

end Gearman
